import Mathlib

/-!
Verification development for the DNYS reconciliation and categorization engine
(server/routes.ts, shared/schema.ts).  Amounts are modelled as exact rationals
(the source uses JS numbers); JS `Map` / `Set` are modelled as insertion-ordered
association lists / duplicate-free lists, matching JS iteration order.
-/

/-! ## JS string and number primitives -/

/-- The string a JS `x || ""` produces from a possibly-undefined string. -/
def optStr (o : Option String) : String := o.getD ""

/-- JS `a || b` on possibly-undefined strings: `a` unless it is undefined or empty. -/
def jsOrOpt (a b : Option String) : Option String :=
  match a with
  | none => b
  | some s => if s = "" then b else some s

/-- JS `a || d` where `d` is a string default. -/
def jsOrStr (a : Option String) (d : String) : String :=
  match a with
  | none => d
  | some s => if s = "" then d else s

/-- ASCII lower-casing of one character (JS `toLowerCase` restricted to ASCII,
which covers every keyword, payment channel and email the engine compares). -/
def lowerChar (c : Char) : Char :=
  if 65 ≤ c.toNat ∧ c.toNat ≤ 90 then Char.ofNat (c.toNat + 32) else c

/-- A whitespace character as matched by JS `\s` / `trim` (ASCII forms and NBSP). -/
def isWS (c : Char) : Bool :=
  c == ' ' || c == '\t' || c == '\n' || c == '\r' || c == '\x0b' || c == '\x0c' || c.toNat == 160

def toLowerStr (s : String) : String := String.mk (s.data.map lowerChar)

def trimList (l : List Char) : List Char :=
  ((l.dropWhile isWS).reverse.dropWhile isWS).reverse

/-- JS `(email || "").toLowerCase().trim()` (routes.ts `normalizeEmail`). -/
def normalizeEmail (email : Option String) : String :=
  String.mk (trimList ((optStr email).data.map lowerChar))

def isPrefB : List Char → List Char → Bool
  | [], _ => true
  | _ :: _, [] => false
  | a :: as, b :: bs => a == b && isPrefB as bs

def isInfB (sub : List Char) : List Char → Bool
  | [] => sub.isEmpty
  | b :: bs => isPrefB sub (b :: bs) || isInfB sub bs

/-- JS `s.includes(sub)`. -/
def includesStr (s sub : String) : Bool := isInfB sub.data s.data

/-- A decimal digit (`[0-9]`). -/
def isDigitC (c : Char) : Bool := 48 ≤ c.toNat && c.toNat ≤ 57

/-- A character surviving `value.replace(/[€$\s]/g, "")`. -/
def stripPred (c : Char) : Bool := !(c == '€') && !(c == '$') && !(isWS c)

/-- Index of the last occurrence of `c` (JS `lastIndexOf`), `-1` when absent. -/
def lastIdx (c : Char) : List Char → Int
  | [] => -1
  | x :: xs =>
    let r := lastIdx c xs
    if 0 ≤ r then r + 1 else if x == c then 0 else -1

/-- JS `String.replace(a, b)` with single characters: replace the first occurrence. -/
def replaceFirst (a b : Char) : List Char → List Char
  | [] => []
  | c :: cs => if c == a then b :: cs else c :: replaceFirst a b cs

def natOfDigits (ds : List Char) : Nat :=
  ds.foldl (fun n c => 10 * n + (c.toNat - 48)) 0

def fracOfDigits (ds : List Char) : ℚ :=
  ds.foldr (fun c q => ((c.toNat - 48 : ℕ) + q) / 10) 0

/-- Exponent suffix accepted by JS `parseFloat` after the digits
(`e`/`E`, optional sign, digits); an incomplete exponent is ignored. -/
def expFactor (l : List Char) : ℚ :=
  match l with
  | [] => 1
  | c :: r =>
    if c == 'e' || c == 'E' then
      match r with
      | '-' :: r2 =>
        let es := r2.takeWhile isDigitC
        if es.isEmpty then 1 else ((10 : ℚ) ^ natOfDigits es)⁻¹
      | '+' :: r2 =>
        let es := r2.takeWhile isDigitC
        if es.isEmpty then 1 else (10 : ℚ) ^ natOfDigits es
      | _ =>
        let es := r.takeWhile isDigitC
        if es.isEmpty then 1 else (10 : ℚ) ^ natOfDigits es
    else 1

/-- Unsigned part of JS `parseFloat`: longest prefix `digits [. digits] [exp]`;
`none` when no digit is parsed (NaN).  (`Infinity` literals are not modelled:
no feed amount and no claim involves them.) -/
def parseUnsigned (l : List Char) : Option ℚ :=
  let ds := l.takeWhile isDigitC
  let r := l.dropWhile isDigitC
  match r with
  | '.' :: r2 =>
    let fs := r2.takeWhile isDigitC
    let r3 := r2.dropWhile isDigitC
    if ds.isEmpty && fs.isEmpty then none
    else some ((natOfDigits ds + fracOfDigits fs) * expFactor r3)
  | _ => if ds.isEmpty then none else some (natOfDigits ds * expFactor r)

/-- JS `parseFloat` on an already-whitespace-free string, as a rational;
`none` for NaN. -/
def parseFloatQ (l : List Char) : Option ℚ :=
  match l with
  | [] => none
  | c :: r =>
    if c == '-' then (parseUnsigned r).map Neg.neg
    else if c == '+' then parseUnsigned r
    else parseUnsigned (c :: r)

/-- Separator heuristic of routes.ts `parseNumber` (lines 53-62): whichever of
`,` and `.` occurs last is kept as the decimal separator, the other is removed;
the source's `else if` and `else` branches are the same `replace(/,/g, "")` and
are transcribed as the single else-branch. -/
def sepProcess (l : List Char) : List Char :=
  let lastComma := lastIdx ',' l
  let lastPeriod := lastIdx '.' l
  if lastPeriod < lastComma then replaceFirst ',' '.' (l.filter (fun c => !(c == '.')))
  else l.filter (fun c => !(c == ','))

/-- routes.ts `parseNumber`: strip `€`, `$` and whitespace (the subsequent
`.trim()` is a no-op since all whitespace is already removed), apply the
separator heuristic, convert with `parseFloat`, defaulting NaN to 0. -/
def parseNumber (value : Option String) : ℚ :=
  match value with
  | none => 0
  | some s =>
    if s = "" then 0
    else
      let cleaned := s.data.filter stripPred
      (parseFloatQ (sepProcess cleaned)).getD 0

unseal Rat.add Rat.mul Rat.inv Rat.sub in
example : parseNumber (some "1.234,56") = 123456 / 100 := by decide

unseal Rat.add Rat.mul Rat.inv Rat.sub in
example : parseNumber (some "1,234.56") = 123456 / 100 := by decide

example : parseNumber (some "") = 0 := by decide

example : parseNumber (some "abc") = 0 := by decide

unseal Rat.add Rat.mul Rat.inv Rat.sub in
example : parseNumber (some "1.5") = 3 / 2 := by decide

unseal Rat.add Rat.mul Rat.inv Rat.sub in
example : parseNumber (some "1,5") = 3 / 2 := by decide

unseal Rat.add Rat.mul Rat.inv Rat.sub in
example : parseNumber (some "€ 10") = 10 := by decide

example : normalizeEmail (some " Foo@Bar.COM ") = "foo@bar.com" := by decide

example : normalizeEmail none = "" := by decide

/-! ## Match status (routes.ts `getMatchStatus`) -/

inductive MatchStatus where
  | match_
  | small_diff
  | large_diff
  | only_in_momence
  | only_in_stripe
deriving DecidableEq

/-- routes.ts `getMatchStatus`: tier of the absolute difference. -/
def getMatchStatus (difference : ℚ) : MatchStatus :=
  if |difference| < 1 then .match_
  else if |difference| < 5 then .small_diff
  else .large_diff

/-! ## Category model (shared/schema.ts) -/

inductive SpecialHandling where
  | accrual
  | spread12
deriving DecidableEq

inductive CatGroup where
  | yoga
  | horeca
deriving DecidableEq

/-- schema.ts `CategoryConfigWithSpecial`. -/
structure CategoryConfigWithSpecial where
  keywords : List String
  btwRate : ℚ
  twinfieldAccount : String
  group : CatGroup
  specialHandling : Option SpecialHandling := none
  priority : Nat
deriving DecidableEq

/-- routes.ts `CustomCategoryConfig` (operator-saved category settings). -/
structure CustomCategoryConfig where
  name : String
  keywords : List String
  btwRate : ℚ
  twinfieldAccount : String
  group : CatGroup
deriving DecidableEq

/-- schema.ts `STRIPE_PAYMENT_METHODS`: the reconcilable-channel allowlist. -/
def STRIPE_PAYMENT_METHODS : List String := ["Card", "iDEAL", "SEPA Direct Debit", "Card reader"]

/-- routes.ts `EXCLUDED_EMAILS`: identities excluded from customer comparisons. -/
def EXCLUDED_EMAILS : List String := ["info@denieuweyogaschool.nl"]

/-- schema.ts `REVENUE_CATEGORIES`, in declaration order. -/
def REVENUE_CATEGORIES : List (String × CategoryConfigWithSpecial) := [
  ("Online/Livestream",
    { keywords := ["livestream", "online", "virtual"],
      btwRate := 9/100, twinfieldAccount := "8200", group := .yoga, priority := 1 }),
  ("Opleidingen",
    { keywords := ["opleiding", "teacher training", "200 uur", "ademcoach",
        "yogatherapie", "meditatie tot zelfrealisatie", "schoolverlichting",
        "facilitator", "certification", "300 uur", "yin yoga training",
        "pilates teacher training"],
      btwRate := 21/100, twinfieldAccount := "8300", group := .yoga,
      specialHandling := some .accrual, priority := 2 }),
  ("Jaarabonnementen",
    { keywords := ["year membership", "yearly membership", "jaar abonnement", "jaarlidmaatschap"],
      btwRate := 9/100, twinfieldAccount := "8101", group := .yoga,
      specialHandling := some .spread12, priority := 3 }),
  ("Gift Cards",
    { keywords := ["gift card", "cadeaukaart", "voucher"],
      btwRate := 0, twinfieldAccount := "8900", group := .yoga, priority := 4 }),
  ("Money Credits",
    { keywords := ["money credit", "tegoed", "credit"],
      btwRate := 0, twinfieldAccount := "8901", group := .yoga, priority := 5 }),
  ("Workshops & Events",
    { keywords := ["workshop", "ceremony", "cacao", "tantra", "truffle",
        "retreat", "circle", "event", "face yoga", "new year",
        "sound bath", "gong", "kirtan", "sound healing"],
      btwRate := 9/100, twinfieldAccount := "8150", group := .yoga, priority := 6 }),
  ("Abonnementen",
    { keywords := ["membership", "unlimited", "abonnement", "lidmaatschap", "doorlopend",
        "monthly", "maandelijks"],
      btwRate := 9/100, twinfieldAccount := "8100", group := .yoga, priority := 7 }),
  ("Rittenkaarten",
    { keywords := ["class card", "rittenkaart", "lessenkaart", "intro", "kaart",
        "pack", "5 class", "10 class", "20 class", "ritten"],
      btwRate := 9/100, twinfieldAccount := "8110", group := .yoga, priority := 8 }),
  ("Omzet Keuken",
    { keywords := ["bananenbrood", "banana bread", "quiche", "soep", "soup",
        "bliss ball", "brownie", "snickers", "combideal", "meal",
        "snack", "food", "eten"],
      btwRate := 9/100, twinfieldAccount := "8001", group := .horeca, priority := 9 }),
  ("Omzet Drank Laag",
    { keywords := ["coffee", "cappuccino", "latte", "espresso", "flat white",
        "cortado", "macchiato", "americano", "chai", "matcha",
        "tea", "thee", "smoothie", "kombucha", "lemonaid", "charitea",
        "kokoswater", "water", "ijsthee", "juice", "cacaoccino",
        "cacao shot", "cashew melk", "koffie", "drank"],
      btwRate := 9/100, twinfieldAccount := "8002", group := .horeca, priority := 10 }),
  ("Omzet Drank Hoog",
    { keywords := ["beer", "wine", "alcohol", "bier", "wijn"],
      btwRate := 21/100, twinfieldAccount := "8003", group := .horeca, priority := 11 }),
  ("Single Classes",
    { keywords := ["single class", "yoga", "pilates", "flow", "yin", "vinyasa",
        "ashtanga", "hatha", "restorative", "breathwork", "meditation",
        "sound", "losse les", "drop in", "drop-in", "€15", "€16", "€17", "€18",
        "class", "les"],
      btwRate := 9/100, twinfieldAccount := "8120", group := .yoga, priority := 12 }),
  ("Overig",
    { keywords := [], btwRate := 9/100, twinfieldAccount := "8999", group := .yoga,
      priority := 99 })]

/-- routes.ts `categorizeItemByKeywords` priority order (Online/Livestream first). -/
def categoryOrder : List String := [
  "Online/Livestream", "Opleidingen", "Jaarabonnementen", "Gift Cards",
  "Money Credits", "Workshops & Events", "Abonnementen", "Rittenkaarten",
  "Omzet Keuken", "Omzet Drank Laag", "Omzet Drank Hoog", "Single Classes"]

/-- routes.ts `CategoryResult`. -/
structure CategoryResult where
  category : String
  btwRate : ℚ
  twinfieldAccount : String
  specialHandling : Option SpecialHandling := none
deriving DecidableEq

/-- The catch-all result `{ category: "Overig", btwRate: 0.09, twinfieldAccount: "8999" }`. -/
def overigResult : CategoryResult :=
  { category := "Overig", btwRate := 9/100, twinfieldAccount := "8999" }

/-- Gift-card code test `/^[A-Z0-9]{6,10}$/` on the raw item name. -/
def isGiftCardCode (s : String) : Bool :=
  6 ≤ s.length && s.length ≤ 10 &&
    s.data.all (fun c => (65 ≤ c.toNat && c.toNat ≤ 90) || (48 ≤ c.toNat && c.toNat ≤ 57))

/-- Keyword scan for one category, including the two exclusion overrides
(`Rittenkaarten` unless the description contains `single`; `Abonnementen`
unless it contains `year`/`jaar`), whose `continue` skips to the next keyword. -/
def keywordHit (itemLower : String) (categoryName : String) (keywords : List String) : Bool :=
  keywords.any (fun keyword =>
    includesStr itemLower (toLowerStr keyword) &&
    !(categoryName == "Rittenkaarten" && includesStr itemLower "single") &&
    !(categoryName == "Abonnementen" &&
        (includesStr itemLower "year" || includesStr itemLower "jaar")))

/-- routes.ts `categorizeItemByKeywords`: keyword-driven classification with
priority order, gift-card pattern rule and yearly-membership rule.  A JS-falsy
item name (undefined or empty) yields the catch-all. -/
def categorizeItemByKeywords
    (itemName : Option String) (customCategories : Option (List CustomCategoryConfig)) :
    CategoryResult :=
  match itemName with
  | none => overigResult
  | some item =>
    if item = "" then overigResult
    else
      let itemLower := toLowerStr item
      if isGiftCardCode item then
        { category := "Gift Cards", btwRate := 0, twinfieldAccount := "8900" }
      else if (includesStr itemLower "year" || includesStr itemLower "jaar") &&
              (includesStr itemLower "membership" || includesStr itemLower "abonnement") then
        { category := "Jaarabonnementen", btwRate := 9/100, twinfieldAccount := "8101",
          specialHandling := some .spread12 }
      else
        match customCategories with
        | some custom =>
          (categoryOrder.findSome? (fun categoryName =>
            match custom.find? (fun c => c.name == categoryName) with
            | none => none
            | some config =>
              if keywordHit itemLower categoryName config.keywords then
                some { category := categoryName, btwRate := config.btwRate,
                       twinfieldAccount := config.twinfieldAccount,
                       specialHandling :=
                         (List.lookup categoryName REVENUE_CATEGORIES).bind
                           (fun catConfig => catConfig.specialHandling) }
              else none)).getD overigResult
        | none =>
          (categoryOrder.findSome? (fun categoryName =>
            match List.lookup categoryName REVENUE_CATEGORIES with
            | none => none
            | some config =>
              if keywordHit itemLower categoryName config.keywords then
                some { category := categoryName, btwRate := config.btwRate,
                       twinfieldAccount := config.twinfieldAccount,
                       specialHandling := config.specialHandling }
              else none)).getD overigResult

/-- schema.ts `productSettings` row, restricted to the fields the engine reads
(`itemName`, `category`, `btwRate`, `twinfieldAccount`, the special-handling
flags, `isReviewed`); the remaining columns are never read by the
categorization or reconciliation code. -/
structure ProductSettings where
  itemName : String
  category : String
  btwRate : ℚ
  twinfieldAccount : Option String
  hasAccrual : Bool := false
  hasSpread : Bool := false
  isReviewed : Bool := false
deriving DecidableEq

/-- routes.ts `categorizeItemFromProduct`: settings of a stored product, with
`twinfieldAccount || "8999"` defaulting. -/
def categorizeItemFromProduct (product : ProductSettings) : CategoryResult :=
  { category := product.category,
    btwRate := product.btwRate,
    twinfieldAccount := jsOrStr product.twinfieldAccount "8999",
    specialHandling :=
      if product.hasAccrual then some .accrual
      else if product.hasSpread then some .spread12
      else none }

/-- routes.ts `categorizeItem`: the Product Memory lookup
(`storage.getProductByName`) is passed in as the function `products`. -/
def categorizeItem (itemName : Option String)
    (customCategories : Option (List CustomCategoryConfig))
    (products : String → Option ProductSettings) : CategoryResult :=
  match itemName with
  | none => overigResult
  | some item =>
    if item = "" then overigResult
    else
      match products item with
      | some storedProduct =>
        if storedProduct.isReviewed then categorizeItemFromProduct storedProduct
        else categorizeItemByKeywords (some item) customCategories
      | none => categorizeItemByKeywords (some item) customCategories

example : (categorizeItemByKeywords (some "Monthly Membership") none).category
    = "Abonnementen" := by decide

example : (categorizeItemByKeywords (some "Year Membership") none).category
    = "Jaarabonnementen" := by decide

example : (categorizeItemByKeywords (some "10 Class Card Single") none).category
    = "Single Classes" := by decide

example : (categorizeItemByKeywords (some "ABC123XY") none).category = "Gift Cards" := by decide

example : (categorizeItemByKeywords (some "Cappuccino") none).category
    = "Omzet Drank Laag" := by decide

unseal Rat.add Rat.mul Rat.inv Rat.sub in
example : (categorizeItemByKeywords (some "zzzz") none) = overigResult := by decide

/-! ## Feed rows (routes.ts `MomenceRow`, `StripeRow`), restricted to the
fields the reconciliation engine reads. -/

/-- Feed-A row: `Item`, `Date`, `Sale value`, `Tax`, `Payment method`,
`Customer email` are the only fields `processReconciliation` and
`checkForNewProducts` read. -/
structure MomenceRow where
  item : Option String := none
  date : Option String := none
  saleValue : Option String := none
  tax : Option String := none
  paymentMethod : Option String := none
  customerEmail : Option String := none
deriving DecidableEq

/-- Feed-B row: the engine reads `reporting_category`, `Status`,
`customer_email` / `Customer Email`, `gross` / `Amount`, `fee` / `Fee`. -/
structure StripeRow where
  reportingCategory : Option String := none
  status : Option String := none
  customerEmail : Option String := none
  customerEmailAlt : Option String := none
  gross : Option String := none
  amount : Option String := none
  fee : Option String := none
  feeAlt : Option String := none
deriving DecidableEq

/-! ## Insertion-ordered maps and sets (JS `Map` / `Set`) -/

/-- JS `Map.set`: overwrite in place, else append (iteration order = insertion order). -/
def mapSet (k : String) (v : β) : List (String × β) → List (String × β)
  | [] => [(k, v)]
  | (k', v') :: rest => if k' == k then (k', v) :: rest else (k', v') :: mapSet k v rest

/-- The JS pattern `m.set(k, f(m.get(k) ?? dflt))`. -/
def mapUpd (k : String) (dflt : β) (f : β → β) (m : List (String × β)) : List (String × β) :=
  mapSet k (f ((List.lookup k m).getD dflt)) m

/-- JS `Set.add`: append unless present. -/
def setAdd (x : String) (l : List String) : List String :=
  if l.contains x then l else l ++ [x]

/-- First-occurrence deduplication (JS `new Set([...])` iteration order). -/
def dedupKeepFirst (l : List String) : List String :=
  l.foldl (fun acc x => setAdd x acc) []

/-! ## Sorting (JS stable `Array.sort` with a numeric comparator) -/

/-- Descending order by a rational key, the order produced by the JS
comparator `(a, b) => key(b) - key(a)`. -/
def descBy (f : α → ℚ) (a b : α) : Prop := f b ≤ f a

instance (f : α → ℚ) : DecidableRel (descBy f) :=
  fun a b => inferInstanceAs (Decidable (f b ≤ f a))

instance (f : α → ℚ) : IsTotal α (descBy f) := ⟨fun a b => le_total (f b) (f a)⟩

instance (f : α → ℚ) : IsTrans α (descBy f) := ⟨fun _ _ _ h1 h2 => le_trans h2 h1⟩

/-- Ascending lexicographic string order (JS default `Array.sort()` on strings). -/
def ascStr (a b : String) : Prop := a ≤ b

instance : DecidableRel ascStr := fun a b => inferInstanceAs (Decidable (a ≤ b))

/-! ## Aggregation state of `processReconciliation` (routes.ts 254-334) -/

structure MethodData where
  count : Nat
  total : ℚ
  isStripe : Bool
deriving DecidableEq

structure CatData where
  count : Nat
  total : ℚ
  totalTax : ℚ
  btwRate : ℚ
  twinfieldAccount : String
deriving DecidableEq

structure ItemData where
  amount : ℚ
  count : Nat
  dates : List String
deriving DecidableEq

/-- The feed-A accumulators of `processReconciliation`. -/
structure AggState where
  momenceByEmail : List (String × ℚ) := []
  momenceItemsByEmail : List (String × List String) := []
  momenceDatesByEmail : List (String × List String) := []
  momenceCountByEmail : List (String × Nat) := []
  paymentMethodTotals : List (String × MethodData) := []
  categoryTotals : List (String × CatData) := []
  categoryItems : List (String × List (String × ItemData)) := []
  momenceTotalAll : ℚ := 0
  nonStripeTotal : ℚ := 0
deriving DecidableEq

def initAgg : AggState := {}

/-- Channel membership test: case-insensitive substring match against
`STRIPE_PAYMENT_METHODS` (routes.ts 278-280). -/
def isStripeMethodOf (paymentMethod : String) : Bool :=
  STRIPE_PAYMENT_METHODS.any
    (fun m => includesStr (toLowerStr paymentMethod) (toLowerStr m))

/-- One iteration of the feed-A row loop of `processReconciliation`
(routes.ts 270-334). -/
def momenceStep (customCategories : Option (List CustomCategoryConfig))
    (products : String → Option ProductSettings)
    (st : AggState) (row : MomenceRow) : AggState :=
  let paymentMethod := optStr row.paymentMethod
  let saleValue := parseNumber row.saleValue
  let tax := parseNumber row.tax
  let customerEmail := normalizeEmail row.customerEmail
  let item := optStr row.item
  let transactionDate := optStr row.date
  let isStripeMethod := isStripeMethodOf paymentMethod
  let st := { st with
    paymentMethodTotals :=
      mapUpd paymentMethod { count := 0, total := 0, isStripe := isStripeMethod }
        (fun d => { d with count := d.count + 1, total := d.total + saleValue })
        st.paymentMethodTotals,
    momenceTotalAll := st.momenceTotalAll + saleValue }
  let r := categorizeItem (some item) customCategories products
  let st := { st with
    categoryTotals :=
      mapUpd r.category
        { count := 0, total := 0, totalTax := 0,
          btwRate := r.btwRate, twinfieldAccount := r.twinfieldAccount }
        (fun d => { d with count := d.count + 1, total := d.total + saleValue,
                           totalTax := d.totalTax + tax })
        st.categoryTotals }
  let itemName := if item = "" then "Onbekend" else item
  let st := { st with
    categoryItems :=
      mapUpd r.category []
        (mapUpd itemName { amount := 0, count := 0, dates := [] }
          (fun d => { d with amount := d.amount + saleValue, count := d.count + 1,
                             dates := if transactionDate = "" then d.dates
                                      else setAdd transactionDate d.dates }))
        st.categoryItems }
  if isStripeMethod then
    if customerEmail = "" then st
    else
      { st with
        momenceByEmail := mapUpd customerEmail 0 (· + saleValue) st.momenceByEmail,
        momenceItemsByEmail :=
          mapUpd customerEmail []
            (fun s => if item = "" then s else setAdd item s) st.momenceItemsByEmail,
        momenceDatesByEmail :=
          mapUpd customerEmail []
            (fun s => if transactionDate = "" then s else setAdd transactionDate s)
            st.momenceDatesByEmail,
        momenceCountByEmail := mapUpd customerEmail 0 (· + 1) st.momenceCountByEmail }
  else { st with nonStripeTotal := st.nonStripeTotal + saleValue }

/-- The feed-B accumulators of `processReconciliation` (routes.ts 336-360). -/
structure StripeAgg where
  stripeByEmail : List (String × (ℚ × ℚ)) := []
  stripeTotalAmount : ℚ := 0
  stripeTotalFees : ℚ := 0
deriving DecidableEq

def initStripe : StripeAgg := {}

/-- One iteration of the feed-B row loop: only completed charges
(`reporting_category == "charge"` or `Status == "paid"`) with a nonempty
normalized email are accumulated. -/
def stripeStep (st : StripeAgg) (row : StripeRow) : StripeAgg :=
  let reportingCategory := toLowerStr (optStr row.reportingCategory)
  let status := toLowerStr (optStr row.status)
  let isCharge := reportingCategory == "charge" || status == "paid"
  if !isCharge then st
  else
    let email := normalizeEmail (jsOrOpt row.customerEmail row.customerEmailAlt)
    if email = "" then st
    else
      let amount := parseNumber (jsOrOpt row.gross row.amount)
      let fee := parseNumber (jsOrOpt row.fee row.feeAlt)
      { stripeByEmail :=
          mapUpd email (0, 0) (fun p => (p.1 + amount, p.2 + fee)) st.stripeByEmail,
        stripeTotalAmount := st.stripeTotalAmount + amount,
        stripeTotalFees := st.stripeTotalFees + fee }

/-! ## Comparison records and session (routes.ts 362-499, schema.ts) -/

structure Comparison where
  sessionId : String
  customerEmail : String
  momenceTotal : ℚ
  stripeAmount : ℚ
  stripeFee : ℚ
  stripeNet : ℚ
  difference : ℚ
  matchStatus : MatchStatus
  items : String
  transactionDate : String
  transactionCount : Nat
deriving DecidableEq

/-- Match-status classification of one identity from its two totals
(routes.ts 394-401). -/
def matchStatusOf (momenceTotal stripeAmount : ℚ) : MatchStatus :=
  if 0 < momenceTotal ∧ stripeAmount = 0 then .only_in_momence
  else if momenceTotal = 0 ∧ 0 < stripeAmount then .only_in_stripe
  else getMatchStatus (momenceTotal - stripeAmount)

def joinComma : List String → String
  | [] => ""
  | [x] => x
  | x :: xs => x ++ ", " ++ joinComma xs

/-- The comparison record pushed for one identity (routes.ts 383-426),
with the not-yet-known session id left empty. -/
def mkComparison (st : AggState) (sst : StripeAgg) (email : String) : Comparison :=
  let momenceTotal := (List.lookup email st.momenceByEmail).getD 0
  let stripeEmailData := (List.lookup email sst.stripeByEmail).getD (0, 0)
  let stripeNet := stripeEmailData.1 - stripeEmailData.2
  let difference := momenceTotal - stripeEmailData.1
  { sessionId := "",
    customerEmail := email,
    momenceTotal := momenceTotal,
    stripeAmount := stripeEmailData.1,
    stripeFee := stripeEmailData.2,
    stripeNet := stripeNet,
    difference := difference,
    matchStatus := matchStatusOf momenceTotal stripeEmailData.1,
    items := (List.lookup email st.momenceItemsByEmail).elim "" joinComma,
    transactionDate := (List.lookup email st.momenceDatesByEmail).elim "" joinComma,
    transactionCount := (List.lookup email st.momenceCountByEmail).getD 0 }

structure Session where
  id : String
  period : String
  momenceTotal : ℚ
  stripeTotal : ℚ
  stripeFees : ℚ
  stripeNet : ℚ
  nonStripeTotal : ℚ
  matchedCount : Nat
  unmatchedCount : Nat
  status : String
deriving DecidableEq

structure PaymentMethodSummary where
  sessionId : String
  paymentMethod : String
  transactionCount : Nat
  totalAmount : ℚ
  percentage : ℚ
  goesThruStripe : Nat
deriving DecidableEq

structure CategorySummaryRec where
  sessionId : String
  category : String
  transactionCount : Nat
  totalAmount : ℚ
  totalTax : ℚ
  btwRate : ℚ
  twinfieldAccount : String
  percentage : ℚ
deriving DecidableEq

structure CategoryItemDetail where
  item : String
  amount : ℚ
  count : Nat
  date : String
deriving DecidableEq

/-- Everything `processReconciliation` persists for one run. -/
structure ProcessOutput where
  session : Session
  comparisons : List Comparison
  paymentMethods : List PaymentMethodSummary
  categories : List CategorySummaryRec
  categoryItems : List (String × List CategoryItemDetail)
deriving DecidableEq

/-- The feed-A accumulation loop of `processReconciliation` (routes.ts 270-334). -/
def momenceAgg (customCategories : Option (List CustomCategoryConfig))
    (products : String → Option ProductSettings)
    (momenceData : List MomenceRow) : AggState :=
  momenceData.foldl (momenceStep customCategories products) initAgg

/-- The feed-B accumulation loop of `processReconciliation` (routes.ts 340-360). -/
def stripeAggOf (stripeData : List StripeRow) : StripeAgg :=
  stripeData.foldl stripeStep initStripe

/-- `allEmails` (routes.ts 362-365): identities of either feed, first occurrence first. -/
def allEmailsOf (st : AggState) (sst : StripeAgg) : List String :=
  dedupKeepFirst (st.momenceByEmail.map Prod.fst ++ sst.stripeByEmail.map Prod.fst)

/-- The identities that produce comparison records: all emails minus the
`EXCLUDED_EMAILS` deny-list (routes.ts 383-387). -/
def includedEmailsOf (st : AggState) (sst : StripeAgg) : List String :=
  (allEmailsOf st sst).filter (fun email => !(EXCLUDED_EMAILS.contains (toLowerStr email)))

/-- The comparison records in push order, before sorting (routes.ts 383-426). -/
def rawComparisons (st : AggState) (sst : StripeAgg) : List Comparison :=
  (includedEmailsOf st sst).map (mkComparison st sst)

/-- routes.ts `processReconciliation` (lines 247-499): the shared pipeline of
`/api/reconcile` and `/api/reconcile/continue`.  The session id generated by
`storage.createSession` (`randomUUID`) enters as the explicit `sessionId`
argument; the Product Memory lookup enters as the `products` function. -/
def processReconciliation (momenceData : List MomenceRow) (stripeData : List StripeRow)
    (period : String) (customCategories : Option (List CustomCategoryConfig))
    (products : String → Option ProductSettings) (sessionId : String) : ProcessOutput :=
  let st := momenceAgg customCategories products momenceData
  let sst := stripeAggOf stripeData
  let comparisons := rawComparisons st sst
  let matchedCount := comparisons.countP (fun c => c.matchStatus == .match_)
  let unmatchedCount := comparisons.countP (fun c => !(c.matchStatus == .match_))
  let sorted := List.insertionSort (descBy (fun c : Comparison => |c.difference|)) comparisons
  let momenceStripeTotal := (st.momenceByEmail.map Prod.snd).foldl (· + ·) 0
  let stripeNetTotal := sst.stripeTotalAmount - sst.stripeTotalFees
  let session : Session :=
    { id := sessionId, period := period,
      momenceTotal := momenceStripeTotal,
      stripeTotal := sst.stripeTotalAmount,
      stripeFees := sst.stripeTotalFees,
      stripeNet := stripeNetTotal,
      nonStripeTotal := st.nonStripeTotal,
      matchedCount := matchedCount,
      unmatchedCount := unmatchedCount,
      status := "completed" }
  let comparisonsWithSession := sorted.map (fun c => { c with sessionId := sessionId })
  let sortedMethods :=
    List.insertionSort (descBy (fun p : String × MethodData => p.2.total))
      st.paymentMethodTotals
  let paymentMethods := sortedMethods.map (fun p =>
    ({ sessionId := sessionId,
       paymentMethod := if p.1 = "" then "Onbekend" else p.1,
       transactionCount := p.2.count,
       totalAmount := p.2.total,
       percentage := if 0 < st.momenceTotalAll then p.2.total / st.momenceTotalAll * 100 else 0,
       goesThruStripe := if p.2.isStripe then 1 else 0 } : PaymentMethodSummary))
  let categoryTotal := (st.categoryTotals.map (fun p => p.2.total)).foldl (· + ·) 0
  let sortedCategories :=
    List.insertionSort (descBy (fun p : String × CatData => p.2.total)) st.categoryTotals
  let categories := sortedCategories.map (fun p =>
    ({ sessionId := sessionId,
       category := p.1,
       transactionCount := p.2.count,
       totalAmount := p.2.total,
       totalTax := p.2.totalTax,
       btwRate := p.2.btwRate,
       twinfieldAccount := p.2.twinfieldAccount,
       percentage := if 0 < categoryTotal then p.2.total / categoryTotal * 100 else 0 }
     : CategorySummaryRec))
  let categoryItemsOut := st.categoryItems.map (fun p =>
    (p.1,
     List.insertionSort (descBy CategoryItemDetail.amount)
       (p.2.map (fun q =>
         { item := q.1, amount := q.2.amount, count := q.2.count,
           date := joinComma (List.insertionSort ascStr q.2.dates) }))))
  { session := session,
    comparisons := comparisonsWithSession,
    paymentMethods := paymentMethods,
    categories := categories,
    categoryItems := categoryItemsOut }

/-! ## Review workflow (routes.ts `checkForNewProducts`, pending reconciliations) -/

/-- storage.ts `NewProductSuggestion`. -/
structure NewProductSuggestion where
  itemName : String
  suggestedCategory : String
  btwRate : ℚ
  twinfieldAccount : String
  specialHandling : Option SpecialHandling
  transactionCount : Nat
  totalAmount : ℚ
deriving DecidableEq

/-- One iteration of the `itemStats` loop of `checkForNewProducts`
(routes.ts 213-222): rows with a falsy `Item` are skipped. -/
def statStep (m : List (String × (Nat × ℚ))) (row : MomenceRow) : List (String × (Nat × ℚ)) :=
  let item := optStr row.item
  if item = "" then m
  else mapUpd item (0, 0) (fun s => (s.1 + 1, s.2 + parseNumber row.saleValue)) m

/-- routes.ts `checkForNewProducts`: distinct item descriptions of the feed-A
rows that have no Product Memory record, each pre-classified by the keyword
ruleset as a suggestion. -/
def checkForNewProducts (momenceData : List MomenceRow)
    (customCategories : Option (List CustomCategoryConfig))
    (products : String → Option ProductSettings) : List NewProductSuggestion :=
  let itemStats := momenceData.foldl statStep []
  itemStats.filterMap (fun p =>
    match products p.1 with
    | some _ => none
    | none =>
      let categorization := categorizeItemByKeywords (some p.1) customCategories
      some { itemName := p.1,
             suggestedCategory := categorization.category,
             btwRate := categorization.btwRate,
             twinfieldAccount := categorization.twinfieldAccount,
             specialHandling := categorization.specialHandling,
             transactionCount := p.2.1,
             totalAmount := p.2.2 })

/-- Pending Reconciliation record (the serialized feed rows are modelled as
the row lists themselves; `JSON.parse ∘ JSON.stringify` is the identity on
the parsed row data). -/
structure PendingRec where
  id : String
  period : String
  momenceData : List MomenceRow
  stripeData : List StripeRow
  newProductCount : Nat
  status : String
deriving DecidableEq

/-- Modelled from the spec: the storage contract's state as consumed by the
routes.  The pending-reconciliation store (`savePendingReconciliation`,
`getPendingReconciliation`, `deletePendingReconciliation`) is declared in the
spec's storage contract and called from server/routes.ts, but its
implementation is not under src/; it is modelled as a durable keyed record
store, together with the session store and the per-session derived tables. -/
structure StoreState where
  pending : List (String × PendingRec) := []
  sessions : List Session := []
  comparisons : List Comparison := []
  paymentMethods : List PaymentMethodSummary := []
  categories : List CategorySummaryRec := []
deriving DecidableEq

/-- Modelled from the spec: `savePendingReconciliation(record)` stores the
record under its identifier. -/
def savePendingReconciliation (r : PendingRec) (st : StoreState) : StoreState :=
  { st with pending := mapSet r.id r st.pending }

/-- Modelled from the spec: `getPendingReconciliation(id)` looks the record up. -/
def getPendingReconciliation (tempSessionId : String) (st : StoreState) : Option PendingRec :=
  List.lookup tempSessionId st.pending

/-- Modelled from the spec: `deletePendingReconciliation(id)` removes the record. -/
def deletePendingReconciliation (tempSessionId : String) (st : StoreState) : StoreState :=
  { st with pending := st.pending.filter (fun p => !(p.1 == tempSessionId)) }

/-- Persisting one completed run: `storage.createSession` followed by the
`addComparisons` / `addPaymentMethods` / `addCategories` batch writes. -/
def persistRun (out : ProcessOutput) (st : StoreState) : StoreState :=
  { st with
    sessions := st.sessions ++ [out.session],
    comparisons := st.comparisons ++ out.comparisons,
    paymentMethods := st.paymentMethods ++ out.paymentMethods,
    categories := st.categories ++ out.categories }

inductive ReconcileResponse where
  | needsReview (tempSessionId : String) (newProducts : List NewProductSuggestion)
      (newProductCount : Nat)
  | completed (sessionId : String)
deriving DecidableEq

/-- Core of `POST /api/reconcile` after CSV parsing and validation
(routes.ts 589-623): without skip-review, a non-empty new-product list stores
a Pending Reconciliation and halts; otherwise the shared pipeline runs.  The
generated temp id (`pending_...`) and session id (`randomUUID`) enter as
arguments. -/
def reconcileRoute (momenceData : List MomenceRow) (stripeData : List StripeRow)
    (period : String) (customCategories : Option (List CustomCategoryConfig))
    (products : String → Option ProductSettings)
    (skipReview : Bool) (tempSessionId newSessionId : String)
    (st : StoreState) : ReconcileResponse × StoreState :=
  if skipReview then
    let out := processReconciliation momenceData stripeData period customCategories
      products newSessionId
    (.completed newSessionId, persistRun out st)
  else
    let newProducts := checkForNewProducts momenceData customCategories products
    if 0 < newProducts.length then
      (.needsReview tempSessionId newProducts newProducts.length,
       savePendingReconciliation
         { id := tempSessionId, period := period,
           momenceData := momenceData, stripeData := stripeData,
           newProductCount := newProducts.length, status := "pending" } st)
    else
      let out := processReconciliation momenceData stripeData period customCategories
        products newSessionId
      (.completed newSessionId, persistRun out st)

inductive ContinueResponse where
  | notFound
  | ok (sessionId : String)
  | serverError
deriving DecidableEq

/-- Core of `POST /api/reconcile/continue/:tempSessionId` (routes.ts
1148-1191): a missing pending record yields 404; otherwise the pending record
is deleted first and the shared pipeline then runs.  `createSessionOk` models
whether `storage.createSession` (and the subsequent batch writes) succeed; on
failure the catch-handler returns a 500 with no session persisted. -/
def continueRoute (tempSessionId : String)
    (customCategories : Option (List CustomCategoryConfig))
    (products : String → Option ProductSettings)
    (newSessionId : String) (createSessionOk : Bool)
    (st : StoreState) : ContinueResponse × StoreState :=
  match getPendingReconciliation tempSessionId st with
  | none => (.notFound, st)
  | some pendingSession =>
    let st1 := deletePendingReconciliation tempSessionId st
    if createSessionOk then
      let out := processReconciliation pendingSession.momenceData pendingSession.stripeData
        pendingSession.period customCategories products newSessionId
      (.ok newSessionId, persistRun out st1)
    else (.serverError, st1)

/-! ## Helper lemmas about the map/set model -/

/-- Sum of a projection of the values of an association list. -/
def valSum {β M : Type} [AddCommMonoid M] (g : β → M) (m : List (String × β)) : M :=
  (m.map (fun p => g p.2)).sum

theorem valSum_nil {β M : Type} [AddCommMonoid M] (g : β → M) : valSum g [] = 0 := rfl

theorem valSum_cons {β M : Type} [AddCommMonoid M] (g : β → M) (a : String × β)
    (m : List (String × β)) : valSum g (a :: m) = g a.2 + valSum g m := by
  simp [valSum]

theorem foldl_add_eq (l : List ℚ) (a : ℚ) : l.foldl (· + ·) a = a + l.sum := by
  induction l generalizing a with
  | nil => simp
  | cons x xs ih => simp [ih, add_assoc]

theorem valSum_mapUpd {β M : Type} [AddCommMonoid M] (g : β → M) (k : String) (d : β)
    (f : β → β) (δ : M) (hf : ∀ b, g (f b) = g b + δ) (hd0 : g d = 0)
    (m : List (String × β)) : valSum g (mapUpd k d f m) = valSum g m + δ := by
  induction m with
  | nil =>
    simp [mapUpd, mapSet, valSum, List.lookup, hf, hd0]
  | cons a tl ih =>
    by_cases h : a.1 = k
    · have hbk : (k == a.1) = true := by simp [h]
      have hab : (a.1 == k) = true := by simp [h]
      simp only [mapUpd, mapSet, List.lookup, hbk, hab, if_true, Option.getD_some,
        valSum_cons]
      rw [hf, add_right_comm]
    · have hbk : (k == a.1) = false := by simp [Ne.symm h]
      have hab : (a.1 == k) = false := by simp [h]
      simp only [mapUpd, mapSet, List.lookup, hbk, hab, Bool.false_eq_true, if_false,
        valSum_cons]
      have := ih
      simp only [mapUpd] at this
      rw [this, add_assoc]

theorem map_fst_mapSet (k : String) (v : β) (m : List (String × β)) :
    (mapSet k v m).map Prod.fst = setAdd k (m.map Prod.fst) := by
  induction m with
  | nil => simp [mapSet, setAdd]
  | cons a tl ih =>
    by_cases h : a.1 = k
    · have hab : (a.1 == k) = true := by simp [h]
      simp only [mapSet, hab, if_true, List.map_cons, setAdd]
      simp [List.contains_cons, h]
    · have hab : (a.1 == k) = false := by simp [h]
      simp only [mapSet, hab, Bool.false_eq_true, if_false, List.map_cons, ih, setAdd,
        List.contains_cons]
      have : (k == a.1) = false := by simp [Ne.symm h]
      simp only [this, Bool.false_or]
      split <;> rfl

theorem map_fst_mapUpd (k : String) (d : β) (f : β → β) (m : List (String × β)) :
    (mapUpd k d f m).map Prod.fst = setAdd k (m.map Prod.fst) := by
  simp [mapUpd, map_fst_mapSet]

theorem lookup_mapSet_self (k : String) (v : β) (m : List (String × β)) :
    List.lookup k (mapSet k v m) = some v := by
  induction m with
  | nil => simp [mapSet, List.lookup]
  | cons a tl ih =>
    by_cases h : a.1 = k
    · have hab : (a.1 == k) = true := by simp [h]
      simp [mapSet, hab, List.lookup, h]
    · have hab : (a.1 == k) = false := by simp [h]
      have hba : (k == a.1) = false := by simp [Ne.symm h]
      simp [mapSet, hab, List.lookup, hba, ih]

theorem lookup_filter_ne (tid : String) (l : List (String × β)) :
    List.lookup tid (l.filter (fun p => !(p.1 == tid))) = none := by
  induction l with
  | nil => simp
  | cons a tl ih =>
    by_cases h : a.1 = tid
    · simp [List.filter_cons, h, ih]
    · have hab : (a.1 == tid) = false := by simp [h]
      have hba : (tid == a.1) = false := by simp [Ne.symm h]
      simp [List.filter_cons, hab, List.lookup, hba, ih]

theorem length_filterMap_countP (f : α → Option γ) (l : List α) :
    (l.filterMap f).length = l.countP (fun x => (f x).isSome) := by
  induction l with
  | nil => simp
  | cons a tl ih =>
    cases hfa : f a with
    | none => simp [List.filterMap_cons, hfa, List.countP_cons, ih]
    | some v => simp [List.filterMap_cons, hfa, List.countP_cons, ih]

/-! ## Projections of one feed-A step -/

theorem momenceStep_categoryTotals (c : Option (List CustomCategoryConfig))
    (pr : String → Option ProductSettings) (st : AggState) (row : MomenceRow) :
    (momenceStep c pr st row).categoryTotals =
      mapUpd (categorizeItem (some (optStr row.item)) c pr).category
        { count := 0, total := 0, totalTax := 0,
          btwRate := (categorizeItem (some (optStr row.item)) c pr).btwRate,
          twinfieldAccount := (categorizeItem (some (optStr row.item)) c pr).twinfieldAccount }
        (fun d => { d with count := d.count + 1,
                           total := d.total + parseNumber row.saleValue,
                           totalTax := d.totalTax + parseNumber row.tax })
        st.categoryTotals := by
  simp only [momenceStep]
  split
  · split <;> rfl
  · rfl

theorem momenceStep_paymentMethodTotals (c : Option (List CustomCategoryConfig))
    (pr : String → Option ProductSettings) (st : AggState) (row : MomenceRow) :
    (momenceStep c pr st row).paymentMethodTotals =
      mapUpd (optStr row.paymentMethod)
        { count := 0, total := 0, isStripe := isStripeMethodOf (optStr row.paymentMethod) }
        (fun d => { d with count := d.count + 1, total := d.total + parseNumber row.saleValue })
        st.paymentMethodTotals := by
  simp only [momenceStep]
  split
  · split <;> rfl
  · rfl

theorem momenceStep_momenceTotalAll (c : Option (List CustomCategoryConfig))
    (pr : String → Option ProductSettings) (st : AggState) (row : MomenceRow) :
    (momenceStep c pr st row).momenceTotalAll =
      st.momenceTotalAll + parseNumber row.saleValue := by
  simp only [momenceStep]
  split
  · split <;> rfl
  · rfl

theorem momenceStep_momenceByEmail (c : Option (List CustomCategoryConfig))
    (pr : String → Option ProductSettings) (st : AggState) (row : MomenceRow) :
    (momenceStep c pr st row).momenceByEmail =
      (if isStripeMethodOf (optStr row.paymentMethod) = true then
        (if normalizeEmail row.customerEmail = "" then st.momenceByEmail
         else mapUpd (normalizeEmail row.customerEmail) 0 (· + parseNumber row.saleValue)
                st.momenceByEmail)
       else st.momenceByEmail) := by
  simp only [momenceStep]
  split
  · split <;> rfl
  · rfl

/-! ## Per-run sums over the feed-A rows -/

/-- Sum of all parsed feed-A sale values. -/
def salesSum (rows : List MomenceRow) : ℚ :=
  (rows.map (fun r => parseNumber r.saleValue)).sum

/-- Sum of all parsed feed-A tax values. -/
def taxSum (rows : List MomenceRow) : ℚ :=
  (rows.map (fun r => parseNumber r.tax)).sum

/-- Sum of the parsed sale values of the feed-A rows on a reconcilable (Stripe)
channel whose normalized customer identity is nonempty. -/
def stripeChannelIdentifiedSum (rows : List MomenceRow) : ℚ :=
  (rows.map (fun r =>
    if isStripeMethodOf (optStr r.paymentMethod) = true ∧ ¬ normalizeEmail r.customerEmail = ""
    then parseNumber r.saleValue else 0)).sum

theorem foldl_catTotals_total (c : Option (List CustomCategoryConfig))
    (pr : String → Option ProductSettings) :
    ∀ (rows : List MomenceRow) (st : AggState),
      valSum (fun d : CatData => d.total) ((rows.foldl (momenceStep c pr) st).categoryTotals)
        = valSum (fun d : CatData => d.total) st.categoryTotals + salesSum rows := by
  intro rows
  induction rows with
  | nil => intro st; simp [salesSum]
  | cons r rs ih =>
    intro st
    simp only [List.foldl_cons, salesSum, List.map_cons, List.sum_cons]
    rw [ih, momenceStep_categoryTotals,
      valSum_mapUpd (fun d : CatData => d.total) _ _ _ (parseNumber r.saleValue)
        (fun b => rfl) rfl]
    simp only [salesSum]
    ring

theorem foldl_catTotals_count (c : Option (List CustomCategoryConfig))
    (pr : String → Option ProductSettings) :
    ∀ (rows : List MomenceRow) (st : AggState),
      valSum (fun d : CatData => d.count) ((rows.foldl (momenceStep c pr) st).categoryTotals)
        = valSum (fun d : CatData => d.count) st.categoryTotals + rows.length := by
  intro rows
  induction rows with
  | nil => intro st; simp
  | cons r rs ih =>
    intro st
    simp only [List.foldl_cons, List.length_cons]
    rw [ih, momenceStep_categoryTotals,
      valSum_mapUpd (fun d : CatData => d.count) _ _ _ 1 (fun b => rfl) rfl]
    omega

theorem foldl_catTotals_tax (c : Option (List CustomCategoryConfig))
    (pr : String → Option ProductSettings) :
    ∀ (rows : List MomenceRow) (st : AggState),
      valSum (fun d : CatData => d.totalTax) ((rows.foldl (momenceStep c pr) st).categoryTotals)
        = valSum (fun d : CatData => d.totalTax) st.categoryTotals + taxSum rows := by
  intro rows
  induction rows with
  | nil => intro st; simp [taxSum]
  | cons r rs ih =>
    intro st
    simp only [List.foldl_cons, taxSum, List.map_cons, List.sum_cons]
    rw [ih, momenceStep_categoryTotals,
      valSum_mapUpd (fun d : CatData => d.totalTax) _ _ _ (parseNumber r.tax)
        (fun b => rfl) rfl]
    simp only [taxSum]
    ring

theorem foldl_methodTotals_total (c : Option (List CustomCategoryConfig))
    (pr : String → Option ProductSettings) :
    ∀ (rows : List MomenceRow) (st : AggState),
      valSum (fun d : MethodData => d.total)
          ((rows.foldl (momenceStep c pr) st).paymentMethodTotals)
        = valSum (fun d : MethodData => d.total) st.paymentMethodTotals + salesSum rows := by
  intro rows
  induction rows with
  | nil => intro st; simp [salesSum]
  | cons r rs ih =>
    intro st
    simp only [List.foldl_cons, salesSum, List.map_cons, List.sum_cons]
    rw [ih, momenceStep_paymentMethodTotals,
      valSum_mapUpd (fun d : MethodData => d.total) _ _ _ (parseNumber r.saleValue)
        (fun b => rfl) rfl]
    simp only [salesSum]
    ring

theorem foldl_methodTotals_count (c : Option (List CustomCategoryConfig))
    (pr : String → Option ProductSettings) :
    ∀ (rows : List MomenceRow) (st : AggState),
      valSum (fun d : MethodData => d.count)
          ((rows.foldl (momenceStep c pr) st).paymentMethodTotals)
        = valSum (fun d : MethodData => d.count) st.paymentMethodTotals + rows.length := by
  intro rows
  induction rows with
  | nil => intro st; simp
  | cons r rs ih =>
    intro st
    simp only [List.foldl_cons, List.length_cons]
    rw [ih, momenceStep_paymentMethodTotals,
      valSum_mapUpd (fun d : MethodData => d.count) _ _ _ 1 (fun b => rfl) rfl]
    omega

theorem foldl_momenceByEmail_sum (c : Option (List CustomCategoryConfig))
    (pr : String → Option ProductSettings) :
    ∀ (rows : List MomenceRow) (st : AggState),
      valSum (fun q : ℚ => q) ((rows.foldl (momenceStep c pr) st).momenceByEmail)
        = valSum (fun q : ℚ => q) st.momenceByEmail + stripeChannelIdentifiedSum rows := by
  intro rows
  induction rows with
  | nil => intro st; simp [stripeChannelIdentifiedSum]
  | cons r rs ih =>
    intro st
    simp only [List.foldl_cons, stripeChannelIdentifiedSum, List.map_cons, List.sum_cons]
    rw [ih, momenceStep_momenceByEmail]
    by_cases h1 : isStripeMethodOf (optStr r.paymentMethod) = true
    · by_cases h2 : normalizeEmail r.customerEmail = ""
      · rw [if_pos h1, if_pos h2, if_neg (fun hc => hc.2 h2)]
        simp only [stripeChannelIdentifiedSum]
        ring
      · rw [if_pos h1, if_neg h2, if_pos ⟨h1, h2⟩,
          valSum_mapUpd (fun q : ℚ => q) _ _ _ (parseNumber r.saleValue) (fun b => rfl) rfl]
        simp only [stripeChannelIdentifiedSum]
        ring
    · rw [if_neg h1, if_neg (fun hc => h1 hc.1)]
      simp only [stripeChannelIdentifiedSum]
      ring

/-! ## Projections of the pipeline output -/

/-- The sort relation of the comparison list: descending absolute difference. -/
abbrev byAbsDiff : Comparison → Comparison → Prop :=
  descBy (fun c : Comparison => |c.difference|)

theorem out_comparisons (m : List MomenceRow) (s : List StripeRow) (p : String)
    (c : Option (List CustomCategoryConfig)) (pr : String → Option ProductSettings)
    (sid : String) :
    (processReconciliation m s p c pr sid).comparisons =
      (List.insertionSort byAbsDiff
        (rawComparisons (momenceAgg c pr m) (stripeAggOf s))).map
        (fun x => { x with sessionId := sid }) := rfl

theorem out_matchedCount (m : List MomenceRow) (s : List StripeRow) (p : String)
    (c : Option (List CustomCategoryConfig)) (pr : String → Option ProductSettings)
    (sid : String) :
    (processReconciliation m s p c pr sid).session.matchedCount =
      (rawComparisons (momenceAgg c pr m) (stripeAggOf s)).countP
        (fun x => x.matchStatus == .match_) := rfl

theorem out_unmatchedCount (m : List MomenceRow) (s : List StripeRow) (p : String)
    (c : Option (List CustomCategoryConfig)) (pr : String → Option ProductSettings)
    (sid : String) :
    (processReconciliation m s p c pr sid).session.unmatchedCount =
      (rawComparisons (momenceAgg c pr m) (stripeAggOf s)).countP
        (fun x => !(x.matchStatus == .match_)) := rfl

theorem out_momenceTotal (m : List MomenceRow) (s : List StripeRow) (p : String)
    (c : Option (List CustomCategoryConfig)) (pr : String → Option ProductSettings)
    (sid : String) :
    (processReconciliation m s p c pr sid).session.momenceTotal =
      (((momenceAgg c pr m).momenceByEmail).map Prod.snd).foldl (· + ·) 0 := rfl

theorem out_categories (m : List MomenceRow) (s : List StripeRow) (p : String)
    (c : Option (List CustomCategoryConfig)) (pr : String → Option ProductSettings)
    (sid : String) :
    (processReconciliation m s p c pr sid).categories =
      (List.insertionSort (descBy (fun q : String × CatData => q.2.total))
          (momenceAgg c pr m).categoryTotals).map (fun q =>
        ({ sessionId := sid,
           category := q.1,
           transactionCount := q.2.count,
           totalAmount := q.2.total,
           totalTax := q.2.totalTax,
           btwRate := q.2.btwRate,
           twinfieldAccount := q.2.twinfieldAccount,
           percentage :=
             if 0 < ((momenceAgg c pr m).categoryTotals.map
                       (fun p2 => p2.2.total)).foldl (· + ·) 0 then
               q.2.total / ((momenceAgg c pr m).categoryTotals.map
                 (fun p2 => p2.2.total)).foldl (· + ·) 0 * 100
             else 0 } : CategorySummaryRec)) := rfl

theorem out_paymentMethods (m : List MomenceRow) (s : List StripeRow) (p : String)
    (c : Option (List CustomCategoryConfig)) (pr : String → Option ProductSettings)
    (sid : String) :
    (processReconciliation m s p c pr sid).paymentMethods =
      (List.insertionSort (descBy (fun q : String × MethodData => q.2.total))
          (momenceAgg c pr m).paymentMethodTotals).map (fun q =>
        ({ sessionId := sid,
           paymentMethod := if q.1 = "" then "Onbekend" else q.1,
           transactionCount := q.2.count,
           totalAmount := q.2.total,
           percentage :=
             if 0 < (momenceAgg c pr m).momenceTotalAll then
               q.2.total / (momenceAgg c pr m).momenceTotalAll * 100
             else 0,
           goesThruStripe := if q.2.isStripe then 1 else 0 } : PaymentMethodSummary)) := rfl

/-! ## Membership and permutation helpers for the output lists -/

theorem sum_map_insertionSort {M : Type} [AddCommMonoid M] (r : α → α → Prop)
    [DecidableRel r] (f : α → M) (l : List α) :
    ((List.insertionSort r l).map f).sum = (l.map f).sum :=
  ((List.perm_insertionSort r l).map f).sum_eq

theorem mem_out_comparisons {m : List MomenceRow} {s : List StripeRow} {p : String}
    {c : Option (List CustomCategoryConfig)} {pr : String → Option ProductSettings}
    {sid : String} {x : Comparison}
    (hx : x ∈ (processReconciliation m s p c pr sid).comparisons) :
    ∃ e, e ∈ includedEmailsOf (momenceAgg c pr m) (stripeAggOf s) ∧
      x = { mkComparison (momenceAgg c pr m) (stripeAggOf s) e with sessionId := sid } := by
  rw [out_comparisons] at hx
  rcases List.mem_map.mp hx with ⟨y, hy, rfl⟩
  have hy2 : y ∈ rawComparisons (momenceAgg c pr m) (stripeAggOf s) :=
    (List.perm_insertionSort byAbsDiff _).mem_iff.mp hy
  rw [rawComparisons] at hy2
  rcases List.mem_map.mp hy2 with ⟨e, he, rfl⟩
  exact ⟨e, he, rfl⟩

theorem mem_setAdd {k x : String} {l : List String} (h : k ∈ setAdd x l) :
    k = x ∨ k ∈ l := by
  unfold setAdd at h
  split at h
  · exact Or.inr h
  · rcases List.mem_append.mp h with h1 | h1
    · exact Or.inr h1
    · exact Or.inl (List.mem_singleton.mp h1)

theorem momenceByEmail_keys_ne (c : Option (List CustomCategoryConfig))
    (pr : String → Option ProductSettings) :
    ∀ (rows : List MomenceRow) (st : AggState),
      (∀ k ∈ st.momenceByEmail.map Prod.fst, k ≠ "") →
      ∀ k ∈ ((rows.foldl (momenceStep c pr) st).momenceByEmail).map Prod.fst, k ≠ "" := by
  intro rows
  induction rows with
  | nil => intro st h; exact h
  | cons r rs ih =>
    intro st h
    refine ih (momenceStep c pr st r) ?_
    intro k hk
    rw [momenceStep_momenceByEmail] at hk
    by_cases h1 : isStripeMethodOf (optStr r.paymentMethod) = true
    · rw [if_pos h1] at hk
      by_cases h2 : normalizeEmail r.customerEmail = ""
      · rw [if_pos h2] at hk; exact h k hk
      · rw [if_neg h2, map_fst_mapUpd] at hk
        rcases mem_setAdd hk with rfl | hk2
        · exact h2
        · exact h k hk2
    · rw [if_neg h1] at hk; exact h k hk

theorem stripeByEmail_keys_ne :
    ∀ (rows : List StripeRow) (st : StripeAgg),
      (∀ k ∈ st.stripeByEmail.map Prod.fst, k ≠ "") →
      ∀ k ∈ ((rows.foldl stripeStep st).stripeByEmail).map Prod.fst, k ≠ "" := by
  intro rows
  induction rows with
  | nil => intro st h; exact h
  | cons r rs ih =>
    intro st h
    refine ih (stripeStep st r) ?_
    intro k hk
    simp only [stripeStep] at hk
    split at hk
    · exact h k hk
    · split at hk
      · exact h k hk
      · rename_i h2
        simp only at hk
        rw [map_fst_mapUpd] at hk
        rcases mem_setAdd hk with rfl | hk2
        · exact h2
        · exact h k hk2

/-- Every identity that produces a comparison record came through the
deny-list filter and is a nonempty key of one of the two accumulators. -/
theorem mem_includedEmails {st : AggState} {sst : StripeAgg} {e : String}
    (he : e ∈ includedEmailsOf st sst) :
    (!(EXCLUDED_EMAILS.contains (toLowerStr e))) = true ∧
      (e ∈ st.momenceByEmail.map Prod.fst ∨ e ∈ sst.stripeByEmail.map Prod.fst) := by
  unfold includedEmailsOf at he
  have h1 := List.mem_filter.mp he
  refine ⟨h1.2, ?_⟩
  have h2 := h1.1
  unfold allEmailsOf at h2
  have : ∀ (l : List String) (acc : List String), e ∈ l.foldl (fun a x => setAdd x a) acc →
      e ∈ acc ∨ e ∈ l := by
    intro l
    induction l with
    | nil => intro acc h; exact Or.inl h
    | cons x xs ihl =>
      intro acc h
      rcases ihl (setAdd x acc) h with h3 | h3
      · rcases mem_setAdd h3 with rfl | h4
        · exact Or.inr (List.mem_cons_self _ _)
        · exact Or.inl h4
      · exact Or.inr (List.mem_cons_of_mem _ h3)
    
  rcases this _ [] h2 with h3 | h3
  · cases h3
  · exact List.mem_append.mp h3

/-! ## Characterization of the match-status classifier -/

theorem getMatchStatus_iff (d : ℚ) :
    (getMatchStatus d = .match_ ↔ |d| < 1) ∧
    (getMatchStatus d = .small_diff ↔ 1 ≤ |d| ∧ |d| < 5) ∧
    (getMatchStatus d = .large_diff ↔ 5 ≤ |d|) := by
  unfold getMatchStatus
  split_ifs with h1 h2
  · refine ⟨?_, ?_, ?_⟩
    · exact ⟨(fun _ => h1), (fun _ => rfl)⟩
    · exact ⟨(fun h => nomatch h), (fun h => absurd h1 (not_lt.mpr h.1))⟩
    · exact ⟨(fun h => nomatch h), (fun h => absurd h1 (not_lt.mpr (by linarith)))⟩
  · refine ⟨?_, ?_, ?_⟩
    · exact ⟨(fun h => nomatch h), (fun h => absurd h h1)⟩
    · exact ⟨(fun _ => ⟨not_lt.mp h1, h2⟩), (fun _ => rfl)⟩
    · exact ⟨(fun h => nomatch h), (fun h => absurd h2 (not_lt.mpr h))⟩
  · refine ⟨?_, ?_, ?_⟩
    · exact ⟨(fun h => nomatch h), (fun h => absurd h h1)⟩
    · exact ⟨(fun h => nomatch h), (fun h => absurd h.2 h2)⟩
    · exact ⟨(fun _ => not_lt.mp h2), (fun _ => rfl)⟩

theorem getMatchStatus_ne_only (d : ℚ) :
    getMatchStatus d ≠ .only_in_momence ∧ getMatchStatus d ≠ .only_in_stripe := by
  unfold getMatchStatus
  split_ifs <;> exact ⟨(fun h => nomatch h), (fun h => nomatch h)⟩

theorem matchStatusOf_iff (mT sA : ℚ) :
    (matchStatusOf mT sA = .only_in_momence ↔ 0 < mT ∧ sA = 0) ∧
    (matchStatusOf mT sA = .only_in_stripe ↔ mT = 0 ∧ 0 < sA) ∧
    (¬(0 < mT ∧ sA = 0) → ¬(mT = 0 ∧ 0 < sA) →
      matchStatusOf mT sA = getMatchStatus (mT - sA)) := by
  unfold matchStatusOf
  split_ifs with h1 h2
  · refine ⟨?_, ?_, ?_⟩
    · exact ⟨(fun _ => h1), (fun _ => rfl)⟩
    · exact ⟨(fun h => nomatch h), (fun h => absurd (h.1 ▸ h1.1) (lt_irrefl 0))⟩
    · exact fun hn _ => absurd h1 hn
  · refine ⟨?_, ?_, ?_⟩
    · exact ⟨(fun h => nomatch h), (fun h => absurd h h1)⟩
    · exact ⟨(fun _ => h2), (fun _ => rfl)⟩
    · exact fun _ hn => absurd h2 hn
  · refine ⟨?_, ?_, ?_⟩
    · exact ⟨(fun h => absurd h (getMatchStatus_ne_only _).1), (fun h => absurd h h1)⟩
    · exact ⟨(fun h => absurd h (getMatchStatus_ne_only _).2), (fun h => absurd h h2)⟩
    · exact fun _ _ => rfl

theorem countP_bool_split (p : α → Bool) (l : List α) :
    l.countP p + l.countP (fun a => !(p a)) = l.length := by
  induction l with
  | nil => rfl
  | cons a t ih =>
    by_cases h : p a = true <;> simp [List.countP_cons, h, ← ih] <;> omega

/-! ## Claim theorems: matcher, aggregation totals, sorting, counts -/

unseal Rat.add Rat.mul Rat.inv Rat.sub in
/-- C2: in every comparison output, the match status is exactly the
classification of the record's feed-A total and feed-B gross: `only_in_momence`
iff feed-A total > 0 and feed-B gross = 0, `only_in_stripe` iff feed-A total = 0
and feed-B gross > 0, otherwise the strict-threshold tiers of the absolute
difference (< 1 ⇒ match, < 5 ⇒ small_diff, else large_diff); in particular a
difference of exactly 1 is not a match, 999/1000 is a match, and exactly 5 is
not a small_diff. -/
theorem c2_matcher :
    (∀ (m : List MomenceRow) (s : List StripeRow) (p : String)
        (c : Option (List CustomCategoryConfig)) (pr : String → Option ProductSettings)
        (sid : String),
      ((processReconciliation m s p c pr sid).comparisons.all
        (fun x => x.matchStatus == matchStatusOf x.momenceTotal x.stripeAmount
          && x.difference == x.momenceTotal - x.stripeAmount)) = true)
    ∧ (∀ mT sA : ℚ, (matchStatusOf mT sA = .only_in_momence ↔ 0 < mT ∧ sA = 0)
        ∧ (matchStatusOf mT sA = .only_in_stripe ↔ mT = 0 ∧ 0 < sA)
        ∧ (¬(0 < mT ∧ sA = 0) → ¬(mT = 0 ∧ 0 < sA) →
            matchStatusOf mT sA = getMatchStatus (mT - sA)))
    ∧ (∀ d : ℚ, (getMatchStatus d = .match_ ↔ |d| < 1)
        ∧ (getMatchStatus d = .small_diff ↔ 1 ≤ |d| ∧ |d| < 5)
        ∧ (getMatchStatus d = .large_diff ↔ 5 ≤ |d|))
    ∧ getMatchStatus 1 ≠ .match_ ∧ getMatchStatus 1 = .small_diff
    ∧ getMatchStatus (999/1000) = .match_
    ∧ getMatchStatus 5 ≠ .small_diff ∧ getMatchStatus 5 = .large_diff := by
  refine ⟨?_, matchStatusOf_iff, getMatchStatus_iff, ?_, ?_, ?_, ?_, ?_⟩
  · intro m s p c pr sid
    rw [List.all_eq_true]
    intro x hx
    rcases mem_out_comparisons hx with ⟨e, he, rfl⟩
    simp [mkComparison]
  · decide
  · decide
  · decide
  · decide
  · decide

unseal Rat.add Rat.mul Rat.inv Rat.sub in
/-- C2 witness: the conditional branch of the classifier applied at the
concrete totals 3 and 2. -/
theorem c2_matcher_witness :
    matchStatusOf 3 2 = getMatchStatus (3 - 2) ∧ matchStatusOf 3 2 = .small_diff :=
  ⟨(c2_matcher.2.1 3 2).2.2 (by norm_num) (by norm_num), by decide⟩

/-- C8: the comparison list of every run is sorted by descending absolute
difference. -/
theorem c8_comparisons_sorted (m : List MomenceRow) (s : List StripeRow) (p : String)
    (c : Option (List CustomCategoryConfig)) (pr : String → Option ProductSettings)
    (sid : String) :
    ((processReconciliation m s p c pr sid).comparisons).Sorted
      (fun a b : Comparison => |b.difference| ≤ |a.difference|) := by
  rw [out_comparisons]
  exact List.Pairwise.map _ (fun a b h => h) (List.sorted_insertionSort byAbsDiff _)

/-- C10: matchedCount counts exactly the `match` records, unmatchedCount all
others, the two add up to the number of comparison records, and no record
carries a deny-listed identity. -/
theorem c10_counts (m : List MomenceRow) (s : List StripeRow) (p : String)
    (c : Option (List CustomCategoryConfig)) (pr : String → Option ProductSettings)
    (sid : String) :
    ((processReconciliation m s p c pr sid).session.matchedCount
      = ((processReconciliation m s p c pr sid).comparisons.filter
          (fun x => x.matchStatus == .match_)).length)
    ∧ ((processReconciliation m s p c pr sid).session.unmatchedCount
      = ((processReconciliation m s p c pr sid).comparisons.filter
          (fun x => !(x.matchStatus == .match_))).length)
    ∧ ((processReconciliation m s p c pr sid).session.matchedCount
        + (processReconciliation m s p c pr sid).session.unmatchedCount
      = (processReconciliation m s p c pr sid).comparisons.length)
    ∧ (((processReconciliation m s p c pr sid).comparisons.all
        (fun x => !(EXCLUDED_EMAILS.contains (toLowerStr x.customerEmail)))) = true) := by
  refine ⟨?_, ?_, ?_, ?_⟩
  · rw [out_matchedCount, out_comparisons, ← List.countP_eq_length_filter, List.countP_map,
      (List.perm_insertionSort byAbsDiff _).countP_eq]
    rfl
  · rw [out_unmatchedCount, out_comparisons, ← List.countP_eq_length_filter, List.countP_map,
      (List.perm_insertionSort byAbsDiff _).countP_eq]
    rfl
  · rw [out_matchedCount, out_unmatchedCount, out_comparisons, List.length_map,
      (List.perm_insertionSort byAbsDiff _).length_eq]
    exact countP_bool_split _ _
  · rw [List.all_eq_true]
    intro x hx
    rcases mem_out_comparisons hx with ⟨e, he, rfl⟩
    have h2 := mem_includedEmails he
    simpa [mkComparison] using h2.1

/-- C7: every feed-A row is classified and accumulated into both the category
totals (count, amount, tax) and the channel totals, so the category totals sum
to the total parsed sales, as do the channel totals; rows with an empty
normalized identity are excluded only from the per-identity comparison
records. -/
theorem c7_per_row_accumulation (m : List MomenceRow) (s : List StripeRow) (p : String)
    (c : Option (List CustomCategoryConfig)) (pr : String → Option ProductSettings)
    (sid : String) :
    (((processReconciliation m s p c pr sid).categories.map
        (fun x => x.totalAmount)).sum = salesSum m)
    ∧ (((processReconciliation m s p c pr sid).paymentMethods.map
        (fun x => x.totalAmount)).sum = salesSum m)
    ∧ (((processReconciliation m s p c pr sid).categories.map
        (fun x => x.transactionCount)).sum = m.length)
    ∧ (((processReconciliation m s p c pr sid).paymentMethods.map
        (fun x => x.transactionCount)).sum = m.length)
    ∧ (((processReconciliation m s p c pr sid).categories.map
        (fun x => x.totalTax)).sum = taxSum m)
    ∧ (((processReconciliation m s p c pr sid).comparisons.all
        (fun x => !(x.customerEmail == ""))) = true) := by
  refine ⟨?_, ?_, ?_, ?_, ?_, ?_⟩
  · rw [out_categories, List.map_map, sum_map_insertionSort]
    have h := foldl_catTotals_total c pr m initAgg
    rw [show valSum (fun d : CatData => d.total) initAgg.categoryTotals = 0 from rfl,
      zero_add] at h
    exact h
  · rw [out_paymentMethods, List.map_map, sum_map_insertionSort]
    have h := foldl_methodTotals_total c pr m initAgg
    rw [show valSum (fun d : MethodData => d.total) initAgg.paymentMethodTotals = 0 from rfl,
      zero_add] at h
    exact h
  · rw [out_categories, List.map_map, sum_map_insertionSort]
    have h := foldl_catTotals_count c pr m initAgg
    rw [show valSum (fun d : CatData => d.count) initAgg.categoryTotals = 0 from rfl,
      zero_add] at h
    exact h
  · rw [out_paymentMethods, List.map_map, sum_map_insertionSort]
    have h := foldl_methodTotals_count c pr m initAgg
    rw [show valSum (fun d : MethodData => d.count) initAgg.paymentMethodTotals = 0 from rfl,
      zero_add] at h
    exact h
  · rw [out_categories, List.map_map, sum_map_insertionSort]
    have h := foldl_catTotals_tax c pr m initAgg
    rw [show valSum (fun d : CatData => d.totalTax) initAgg.categoryTotals = 0 from rfl,
      zero_add] at h
    exact h
  · rw [List.all_eq_true]
    intro x hx
    rcases mem_out_comparisons hx with ⟨e, he, rfl⟩
    have h2 := mem_includedEmails he
    have hne : e ≠ "" := by
      rcases h2.2 with h3 | h3
      · exact momenceByEmail_keys_ne c pr m initAgg
          (fun k hk => absurd hk (List.not_mem_nil k)) e h3
      · exact stripeByEmail_keys_ne s initStripe
          (fun k hk => absurd hk (List.not_mem_nil k)) e h3
    simp [mkComparison, hne]

/-- The feed-A reconcilable-channel total as claim C4 states it: every
reconcilable-channel row counted, including rows whose normalized customer
identity is empty. -/
def claimedStripeChannelSum (rows : List MomenceRow) : ℚ :=
  (rows.map (fun r =>
    if isStripeMethodOf (optStr r.paymentMethod) = true then parseNumber r.saleValue
    else 0)).sum

/-- A reconcilable-channel feed-A row with an empty customer identity. -/
def c4Row : MomenceRow :=
  { item := some "Yoga Class", date := some "2024-01-02", saleValue := some "10",
    tax := some "0.83", paymentMethod := some "Card", customerEmail := some "" }

unseal Rat.add Rat.mul Rat.inv Rat.sub in
/-- C4 counterexample: with a single Card row of 10 and an empty identity, the
session's feed-A total is 0, not the claimed 10 — reconcilable-channel rows
with an empty identity are dropped from the session total. -/
theorem c4_cx :
    (processReconciliation [c4Row] [] "2024-01" none (fun _ => none) "sid").session.momenceTotal
        = 0
    ∧ claimedStripeChannelSum [c4Row] = 10
    ∧ (processReconciliation [c4Row] [] "2024-01" none (fun _ => none)
        "sid").session.momenceTotal ≠ claimedStripeChannelSum [c4Row] := by
  refine ⟨by decide, by decide, by decide⟩

/-- C4 amended: the session's feed-A total equals the sum of parsed sale values
over the reconcilable-channel rows whose normalized customer identity is
nonempty (rows with an empty identity are excluded). -/
theorem c4_amended (m : List MomenceRow) (s : List StripeRow) (p : String)
    (c : Option (List CustomCategoryConfig)) (pr : String → Option ProductSettings)
    (sid : String) :
    (processReconciliation m s p c pr sid).session.momenceTotal
      = stripeChannelIdentifiedSum m := by
  rw [out_momenceTotal, foldl_add_eq, zero_add]
  have h := foldl_momenceByEmail_sum c pr m initAgg
  rw [show valSum (fun q : ℚ => q) initAgg.momenceByEmail = 0 from rfl, zero_add] at h
  exact h

/-! ## Claim C9: determinism up to the generated session id -/

/-- The run outputs with every session-id field blanked. -/
def stripSessionIds (o : ProcessOutput) : ProcessOutput :=
  { session := { o.session with id := "" },
    comparisons := o.comparisons.map (fun x => { x with sessionId := "" }),
    paymentMethods := o.paymentMethods.map (fun x => { x with sessionId := "" }),
    categories := o.categories.map (fun x => { x with sessionId := "" }),
    categoryItems := o.categoryItems }

theorem map_strip_attach (sid : String) (l : List Comparison) :
    ((l.map (fun x => { x with sessionId := sid })).map (fun x => { x with sessionId := "" }))
      = l.map (fun x => { x with sessionId := "" }) := by
  induction l with
  | nil => rfl
  | cons a t ih =>
    simp only [List.map_cons]
    rw [ih]

/-- C9 amended: the pipeline is deterministic — two runs on the same feeds,
Product Memory and category settings produce identical Category, Channel and
Comparison outputs up to the generated session identifier stored in each
record. -/
theorem c9_deterministic (m : List MomenceRow) (s : List StripeRow) (p : String)
    (c : Option (List CustomCategoryConfig)) (pr : String → Option ProductSettings)
    (sid1 sid2 : String) :
    stripSessionIds (processReconciliation m s p c pr sid1)
      = stripSessionIds (processReconciliation m s p c pr sid2) := by
  unfold stripSessionIds
  have hc : (processReconciliation m s p c pr sid1).comparisons.map
        (fun x => { x with sessionId := "" })
      = (processReconciliation m s p c pr sid2).comparisons.map
        (fun x => { x with sessionId := "" }) := by
    rw [out_comparisons, out_comparisons, map_strip_attach, map_strip_attach]
  have hp : (processReconciliation m s p c pr sid1).paymentMethods.map
        (fun x => { x with sessionId := "" })
      = (processReconciliation m s p c pr sid2).paymentMethods.map
        (fun x => { x with sessionId := "" }) := by
    rw [out_paymentMethods, out_paymentMethods]
    simp only [List.map_map]
    rfl
  have hcat : (processReconciliation m s p c pr sid1).categories.map
        (fun x => { x with sessionId := "" })
      = (processReconciliation m s p c pr sid2).categories.map
        (fun x => { x with sessionId := "" }) := by
    rw [out_categories, out_categories]
    simp only [List.map_map]
    rfl
  rw [hc, hp, hcat]
  rfl

/-- One reconcilable-channel feed-A row with a nonempty identity (the
comparison list of a run over it is nonempty). -/
def c9Momence : List MomenceRow :=
  [{ item := some "Monthly Membership", date := some "2024-01-02", saleValue := some "50",
     tax := some "4.13", paymentMethod := some "Card", customerEmail := some "alice@x.com" }]

unseal Rat.add Rat.mul Rat.inv Rat.sub in
/-- C9 counterexample: two runs over identical inputs that receive different
generated session ids store different (not byte-identical) Comparison records —
each record embeds its run's session id. -/
theorem c9_cx :
    (processReconciliation c9Momence [] "2024-01" none (fun _ => none) "run-a").comparisons
      ≠ (processReconciliation c9Momence [] "2024-01" none (fun _ => none)
          "run-b").comparisons := by
  decide

/-! ## Claim C1: Product Memory override -/

/-- A reviewed Product Memory record whose stored ledger code is present but
empty. -/
def c1Product : ProductSettings :=
  { itemName := "Proefles", category := "Workshops & Events", btwRate := 21/100,
    twinfieldAccount := some "", hasAccrual := false, hasSpread := false,
    isReviewed := true }

/-- A Product Memory state holding exactly `c1Product`. -/
def c1Products : String → Option ProductSettings :=
  fun s => if s = "Proefles" then some c1Product else none

unseal Rat.add Rat.mul Rat.inv Rat.sub in
/-- C1 counterexample: for a reviewed record whose stored ledger code is the
empty string, the classifier returns the default "8999" instead of the stored
value — the ledger code is not returned verbatim. -/
theorem c1_cx :
    c1Products "Proefles" = some c1Product
    ∧ c1Product.isReviewed = true
    ∧ c1Product.twinfieldAccount = some ""
    ∧ (categorizeItem (some "Proefles") none c1Products).twinfieldAccount = "8999"
    ∧ ¬ (categorizeItem (some "Proefles") none c1Products).twinfieldAccount = "" := by
  refine ⟨by decide, by decide, by decide, by decide, by decide⟩

/-- C1 amended: for every item description with an approved (reviewed) Product
Memory record, the classifier returns the record's settings — category and tax
rate verbatim, the stored ledger code when it is present and nonempty (the
default "8999" otherwise), special-handling derived from the stored flags —
independently of the keyword-rule configuration; an absent or empty
description yields the catch-all ("Overig", 0.09, "8999") without error. -/
theorem c1_product_override :
    (∀ (item : String) (c c2 : Option (List CustomCategoryConfig))
        (pr : String → Option ProductSettings) (prod : ProductSettings),
      ¬ item = "" → pr item = some prod → prod.isReviewed = true →
      categorizeItem (some item) c pr = categorizeItemFromProduct prod
      ∧ categorizeItem (some item) c pr = categorizeItem (some item) c2 pr
      ∧ (categorizeItem (some item) c pr).category = prod.category
      ∧ (categorizeItem (some item) c pr).btwRate = prod.btwRate
      ∧ (∀ t : String, prod.twinfieldAccount = some t → ¬ t = "" →
          (categorizeItem (some item) c pr).twinfieldAccount = t)
      ∧ (categorizeItem (some item) c pr).specialHandling
          = (if prod.hasAccrual then some .accrual
             else if prod.hasSpread then some .spread12 else none))
    ∧ (∀ (c : Option (List CustomCategoryConfig)) (pr : String → Option ProductSettings),
        categorizeItem none c pr = overigResult
        ∧ categorizeItem (some "") c pr = overigResult
        ∧ overigResult.category = "Overig" ∧ overigResult.btwRate = 9/100
        ∧ overigResult.twinfieldAccount = "8999") := by
  constructor
  · intro item c c2 pr prod hne hlook hrev
    have hcat : categorizeItem (some item) c pr = categorizeItemFromProduct prod := by
      simp [categorizeItem, hne, hlook, hrev]
    have hcat2 : categorizeItem (some item) c2 pr = categorizeItemFromProduct prod := by
      simp [categorizeItem, hne, hlook, hrev]
    refine ⟨hcat, ?_, ?_, ?_, ?_, ?_⟩
    · rw [hcat, hcat2]
    · rw [hcat]; rfl
    · rw [hcat]; rfl
    · intro t ht htne
      rw [hcat]
      simp [categorizeItemFromProduct, jsOrStr, ht, htne]
    · rw [hcat]; rfl
  · intro c pr
    exact ⟨rfl, by simp [categorizeItem], rfl, rfl, rfl⟩

unseal Rat.add Rat.mul Rat.inv Rat.sub in
/-- C1 witness: the override applied at the concrete reviewed record
`c1Product`, under two different keyword configurations. -/
theorem c1_witness :
    (¬ ("Proefles" : String) = "") ∧ c1Products "Proefles" = some c1Product
    ∧ c1Product.isReviewed = true
    ∧ categorizeItem (some "Proefles") none c1Products = categorizeItemFromProduct c1Product
    ∧ categorizeItem (some "Proefles") none c1Products
        = categorizeItem (some "Proefles") (some []) c1Products :=
  ⟨by decide, by decide, by decide,
   (c1_product_override.1 "Proefles" none (some []) c1Products c1Product
     (by decide) (by decide) (by decide)).1,
   (c1_product_override.1 "Proefles" none (some []) c1Products c1Product
     (by decide) (by decide) (by decide)).2.1⟩

/-! ## Claim C5: resuming a pending reconciliation -/

/-- C5 amended: resuming a nonexistent identifier fails with not-found, changes
no state and creates no session; resuming an existing pending record deletes
the pending record first — after a successful resume the session exists and the
pending record is gone, and when session creation fails the pending record has
also already been removed (a 500 is returned and no session is stored). -/
theorem c5_resume (st : StoreState) (tid : String)
    (c : Option (List CustomCategoryConfig)) (pr : String → Option ProductSettings)
    (sid : String) (createOk : Bool) :
    (getPendingReconciliation tid st = none →
      continueRoute tid c pr sid createOk st = (.notFound, st))
    ∧ (∀ pend, getPendingReconciliation tid st = some pend →
        getPendingReconciliation tid (continueRoute tid c pr sid createOk st).2 = none
        ∧ (createOk = true →
            (continueRoute tid c pr sid createOk st).1 = .ok sid
            ∧ (continueRoute tid c pr sid createOk st).2.sessions
              = st.sessions ++ [(processReconciliation pend.momenceData pend.stripeData
                  pend.period c pr sid).session])
        ∧ (createOk = false →
            (continueRoute tid c pr sid createOk st).1 = .serverError
            ∧ (continueRoute tid c pr sid createOk st).2.sessions = st.sessions)) := by
  constructor
  · intro h
    unfold continueRoute
    rw [h]
  · intro pend h
    unfold continueRoute
    rw [h]
    cases createOk with
    | true =>
      refine ⟨?_, (fun _ => ⟨rfl, rfl⟩), (fun hf => nomatch hf)⟩
      simp only [if_true]
      exact lookup_filter_ne tid st.pending
    | false =>
      refine ⟨?_, (fun ht => nomatch ht), (fun _ => ⟨rfl, rfl⟩)⟩
      exact lookup_filter_ne tid st.pending

/-- A pending reconciliation record and a store holding exactly it. -/
def c5Pending : PendingRec :=
  { id := "t1", period := "2024-01", momenceData := [], stripeData := [],
    newProductCount := 1, status := "pending" }

def c5State : StoreState := { pending := [("t1", c5Pending)] }

/-- C5 counterexample: when session creation fails during a resume, the pending
record is already gone (state changed on error), contradicting the claim that
it is still present. -/
theorem c5_cx :
    getPendingReconciliation "t1" c5State = some c5Pending
    ∧ (continueRoute "t1" none (fun _ => none) "s1" false c5State).1 = .serverError
    ∧ (continueRoute "t1" none (fun _ => none) "s1" false c5State).2.pending = []
    ∧ (continueRoute "t1" none (fun _ => none) "s1" false c5State).2.sessions = [] := by
  refine ⟨by decide, by decide, by decide, by decide⟩

/-- C5 witness: the amended behavior at the concrete one-record store, for a
successful and for a failing resume. -/
theorem c5_witness :
    getPendingReconciliation "t1" c5State = some c5Pending
    ∧ getPendingReconciliation "t1"
        (continueRoute "t1" none (fun _ => none) "s1" true c5State).2 = none
    ∧ (continueRoute "t1" none (fun _ => none) "s1" true c5State).1 = .ok "s1"
    ∧ (continueRoute "t1" none (fun _ => none) "s1" false c5State).1 = .serverError :=
  ⟨by decide,
   ((c5_resume c5State "t1" none (fun _ => none) "s1" true).2 c5Pending (by decide)).1,
   (((c5_resume c5State "t1" none (fun _ => none) "s1" true).2 c5Pending
     (by decide)).2.1 rfl).1,
   (((c5_resume c5State "t1" none (fun _ => none) "s1" false).2 c5Pending
     (by decide)).2.2 rfl).1⟩

/-! ## Claim C6: unseen items suspend the run -/

/-- The distinct nonempty item descriptions of the feed-A rows, first
occurrence first. -/
def distinctItems (rows : List MomenceRow) : List String :=
  rows.foldl (fun acc r =>
    let item := optStr r.item
    if item = "" then acc else setAdd item acc) []

theorem statStep_keys :
    ∀ (rows : List MomenceRow) (mm : List (String × (Nat × ℚ))),
      ((rows.foldl statStep mm).map Prod.fst) =
        rows.foldl (fun acc r =>
          let item := optStr r.item
          if item = "" then acc else setAdd item acc) (mm.map Prod.fst) := by
  intro rows
  induction rows with
  | nil => intro mm; rfl
  | cons r rs ih =>
    intro mm
    simp only [List.foldl_cons]
    rw [ih]
    by_cases h : optStr r.item = ""
    · simp only [statStep, h, if_pos rfl, if_true]
    · simp only [statStep, if_neg h, map_fst_mapUpd]

theorem countP_eq_of_forall (p q : α → Bool) :
    ∀ (l : List α), (∀ a ∈ l, p a = q a) → l.countP p = l.countP q := by
  intro l
  induction l with
  | nil => intro _; rfl
  | cons a t ih =>
    intro h
    rw [List.countP_cons, List.countP_cons, h a (List.mem_cons_self a t),
      ih (fun b hb => h b (List.mem_cons_of_mem a hb))]

/-- C6 amended: when review is not skipped and the feed-A rows contain at
least one item description absent from Product Memory, the run suspends: it
returns a pending response carrying the candidate list and its count, stores a
Pending Reconciliation record with the rows of both feeds and the candidate
count, creates no session and no derived records; the candidates are exactly
the distinct unseen descriptions, each pre-classified by the keyword ruleset,
so exactly one unseen description yields exactly one candidate. -/
theorem c6_review_pending (st : StoreState) (m : List MomenceRow) (s : List StripeRow)
    (p : String) (c : Option (List CustomCategoryConfig))
    (pr : String → Option ProductSettings) (tid sid : String)
    (h : checkForNewProducts m c pr ≠ []) :
    ((reconcileRoute m s p c pr false tid sid st).1
        = .needsReview tid (checkForNewProducts m c pr) (checkForNewProducts m c pr).length)
    ∧ (reconcileRoute m s p c pr false tid sid st).2.sessions = st.sessions
    ∧ (reconcileRoute m s p c pr false tid sid st).2.comparisons = st.comparisons
    ∧ (reconcileRoute m s p c pr false tid sid st).2.paymentMethods = st.paymentMethods
    ∧ (reconcileRoute m s p c pr false tid sid st).2.categories = st.categories
    ∧ getPendingReconciliation tid (reconcileRoute m s p c pr false tid sid st).2
        = some { id := tid, period := p, momenceData := m, stripeData := s,
                 newProductCount := (checkForNewProducts m c pr).length,
                 status := "pending" }
    ∧ (∀ sug ∈ checkForNewProducts m c pr,
        sug.suggestedCategory = (categorizeItemByKeywords (some sug.itemName) c).category
        ∧ sug.btwRate = (categorizeItemByKeywords (some sug.itemName) c).btwRate
        ∧ sug.twinfieldAccount
            = (categorizeItemByKeywords (some sug.itemName) c).twinfieldAccount
        ∧ sug.specialHandling
            = (categorizeItemByKeywords (some sug.itemName) c).specialHandling)
    ∧ (checkForNewProducts m c pr).length
        = ((distinctItems m).filter (fun i => (pr i).isNone)).length
    ∧ (((distinctItems m).filter (fun i => (pr i).isNone)).length = 1 →
        (checkForNewProducts m c pr).length = 1) := by
  have hlen : 0 < (checkForNewProducts m c pr).length := List.length_pos.mpr h
  have hroute : reconcileRoute m s p c pr false tid sid st
      = (.needsReview tid (checkForNewProducts m c pr) (checkForNewProducts m c pr).length,
         savePendingReconciliation
           { id := tid, period := p, momenceData := m, stripeData := s,
             newProductCount := (checkForNewProducts m c pr).length,
             status := "pending" } st) := by
    unfold reconcileRoute
    simp only [Bool.false_eq_true, if_false, if_pos hlen]
  have hcount : (checkForNewProducts m c pr).length
      = ((distinctItems m).filter (fun i => (pr i).isNone)).length := by
    unfold checkForNewProducts
    rw [length_filterMap_countP]
    rw [countP_eq_of_forall _ (fun q => (pr q.1).isNone) _
      (fun a _ => by cases hpa : pr a.1 <;> simp [hpa])]
    rw [← List.countP_eq_length_filter]
    have hkeys : (m.foldl statStep []).map Prod.fst = distinctItems m := statStep_keys m []
    rw [← hkeys, List.countP_map]
    rfl
  refine ⟨?_, ?_, ?_, ?_, ?_, ?_, ?_, hcount, (fun h1 => hcount.trans h1)⟩
  · rw [hroute]
  · rw [hroute]; rfl
  · rw [hroute]; rfl
  · rw [hroute]; rfl
  · rw [hroute]; rfl
  · rw [hroute]
    exact lookup_mapSet_self tid _ st.pending
  · intro sug hsug
    unfold checkForNewProducts at hsug
    rcases List.mem_filterMap.mp hsug with ⟨q, hq, hbuild⟩
    cases hpq : pr q.1 with
    | some v => rw [hpq] at hbuild; cases hbuild
    | none =>
      rw [hpq] at hbuild
      simp only [Option.some.injEq] at hbuild
      rw [← hbuild]
      exact ⟨rfl, rfl, rfl, rfl⟩

/-- A feed-A row whose item description is previously unseen. -/
def c6Momence : List MomenceRow :=
  [{ item := some "Nieuw Product X", date := some "2024-01-02", saleValue := some "25",
     tax := some "2.07", paymentMethod := some "Card", customerEmail := some "alice@x.com" }]

unseal Rat.add Rat.mul Rat.inv Rat.sub in
/-- C6 witness: running reconcile without skip-review over one unseen item
suspends the run with exactly one candidate and an unchanged session store. -/
theorem c6_witness :
    checkForNewProducts c6Momence none (fun _ => none) ≠ []
    ∧ (reconcileRoute c6Momence [] "2024-01" none (fun _ => none) false "t1" "s1"
        {}).1 = .needsReview "t1" (checkForNewProducts c6Momence none (fun _ => none))
          (checkForNewProducts c6Momence none (fun _ => none)).length
    ∧ (reconcileRoute c6Momence [] "2024-01" none (fun _ => none) false "t1" "s1"
        {}).2.sessions = ({} : StoreState).sessions
    ∧ (checkForNewProducts c6Momence none (fun _ => none)).length = 1 :=
  ⟨by decide,
   (c6_review_pending {} c6Momence [] "2024-01" none (fun _ => none) "t1" "s1"
     (by decide)).1,
   (c6_review_pending {} c6Momence [] "2024-01" none (fun _ => none) "t1" "s1"
     (by decide)).2.1,
   by decide⟩

/-! ## Claim C3: single-separator inputs in the Amount Normalizer -/

theorem digit_ne {c d : Char} (hc : isDigitC c = true) (hd : isDigitC d = false) :
    ¬ c = d := by
  intro h
  rw [h] at hc
  rw [hc] at hd
  cases hd

theorem digit_beq_false {c d : Char} (hc : isDigitC c = true) (hd : isDigitC d = false) :
    (c == d) = false :=
  beq_eq_false_iff_ne.mpr (digit_ne hc hd)

theorem digit_stripPred {c : Char} (hc : isDigitC c = true) : stripPred c = true := by
  have hb : 48 ≤ c.toNat ∧ c.toNat ≤ 57 := by simpa [isDigitC] using hc
  have h160 : (c.toNat == 160) = false := by
    simp only [beq_eq_false_iff_ne]
    omega
  simp [stripPred, isWS, digit_beq_false hc (show isDigitC '€' = false by decide),
    digit_beq_false hc (show isDigitC '$' = false by decide),
    digit_beq_false hc (show isDigitC ' ' = false by decide),
    digit_beq_false hc (show isDigitC '\t' = false by decide),
    digit_beq_false hc (show isDigitC '\n' = false by decide),
    digit_beq_false hc (show isDigitC '\r' = false by decide),
    digit_beq_false hc (show isDigitC '\x0b' = false by decide),
    digit_beq_false hc (show isDigitC '\x0c' = false by decide),
    h160]

theorem lastIdx_not_mem {c : Char} : ∀ {l : List Char}, c ∉ l → lastIdx c l = -1 := by
  intro l
  induction l with
  | nil => intro _; rfl
  | cons x xs ih =>
    intro h
    have h1 : c ∉ xs := fun hx => h (List.mem_cons_of_mem x hx)
    have h2 : (x == c) = false :=
      beq_eq_false_iff_ne.mpr (fun hx => h (hx ▸ List.mem_cons_self x xs))
    simp [lastIdx, ih h1, h2]

theorem lastIdx_mem {c : Char} : ∀ {l : List Char}, c ∈ l → 0 ≤ lastIdx c l := by
  intro l
  induction l with
  | nil => intro h; cases h
  | cons x xs ih =>
    intro h
    simp only [lastIdx]
    by_cases hr : (0:Int) ≤ lastIdx c xs
    · rw [if_pos hr]; omega
    · rw [if_neg hr]
      rcases List.mem_cons.mp h with rfl | hmem
      · rw [if_pos (beq_self_eq_true c)]
      · exact absurd (ih hmem) hr

theorem lastIdx_ge {c : Char} : ∀ (l : List Char), -1 ≤ lastIdx c l := by
  intro l
  induction l with
  | nil => exact le_refl _
  | cons x xs ih =>
    simp only [lastIdx]
    by_cases hr : (0:Int) ≤ lastIdx c xs
    · rw [if_pos hr]; omega
    · rw [if_neg hr]
      by_cases hx : (x == c) = true
      · rw [if_pos hx]; omega
      · rw [if_neg hx]

theorem takeWhile_all {p : Char → Bool} :
    ∀ (l : List Char), (∀ x ∈ l, p x = true) → l.takeWhile p = l := by
  intro l
  induction l with
  | nil => intro _; rfl
  | cons x xs ih =>
    intro h
    rw [List.takeWhile_cons, if_pos (h x (List.mem_cons_self x xs)),
      ih (fun y hy => h y (List.mem_cons_of_mem x hy))]

theorem dropWhile_all {p : Char → Bool} :
    ∀ (l : List Char), (∀ x ∈ l, p x = true) → l.dropWhile p = [] := by
  intro l
  induction l with
  | nil => intro _; rfl
  | cons x xs ih =>
    intro h
    rw [List.dropWhile_cons, if_pos (h x (List.mem_cons_self x xs)),
      ih (fun y hy => h y (List.mem_cons_of_mem x hy))]

theorem takeWhile_append_sep {p : Char → Bool} {x : Char} (hx : p x = false) :
    ∀ (a : List Char) (r : List Char), (∀ y ∈ a, p y = true) →
      ((a ++ x :: r).takeWhile p = a ∧ (a ++ x :: r).dropWhile p = x :: r) := by
  intro a
  induction a with
  | nil =>
    intro r _
    constructor
    · rw [List.nil_append, List.takeWhile_cons, if_neg (by rw [hx]; exact Bool.false_ne_true)]
    · rw [List.nil_append, List.dropWhile_cons, if_neg (by rw [hx]; exact Bool.false_ne_true)]
  | cons y ys ih =>
    intro r h
    have hy : p y = true := h y (List.mem_cons_self y ys)
    have hys := ih r (fun z hz => h z (List.mem_cons_of_mem y hz))
    constructor
    · rw [List.cons_append, List.takeWhile_cons, if_pos hy, hys.1]
    · rw [List.cons_append, List.dropWhile_cons, if_pos hy, hys.2]

theorem replaceFirst_append {a : List Char} (b : List Char)
    (ha : ∀ y ∈ a, (y == ',') = false) :
    replaceFirst ',' '.' (a ++ ',' :: b) = a ++ '.' :: b := by
  induction a with
  | nil => rfl
  | cons y ys ih =>
    have hy := ha y (List.mem_cons_self y ys)
    rw [List.cons_append, replaceFirst, if_neg (by rw [hy]; exact Bool.false_ne_true),
      ih (fun z hz => ha z (List.mem_cons_of_mem y hz)), List.cons_append]

theorem not_mem_sep {a b : List Char} {c s : Char}
    (hda : ∀ x ∈ a, isDigitC x = true) (hdb : ∀ x ∈ b, isDigitC x = true)
    (hc : isDigitC c = false) (hsc : ¬ c = s) : c ∉ a ++ s :: b := by
  intro h
  rcases List.mem_append.mp h with h1 | h1
  · have := hda c h1
    rw [this] at hc
    cases hc
  · rcases List.mem_cons.mp h1 with h2 | h2
    · exact hsc h2
    · have := hdb c h2
      rw [this] at hc
      cases hc

theorem sepProcess_comma {a b : List Char}
    (hda : ∀ x ∈ a, isDigitC x = true) (hdb : ∀ x ∈ b, isDigitC x = true) :
    sepProcess (a ++ ',' :: b) = a ++ '.' :: b := by
  unfold sepProcess
  have hdot : '.' ∉ a ++ ',' :: b := not_mem_sep hda hdb (by decide) (by decide)
  have hcm : ',' ∈ a ++ ',' :: b := List.mem_append.mpr (Or.inr (List.mem_cons_self _ _))
  have hge := lastIdx_mem hcm
  rw [lastIdx_not_mem hdot, if_pos (by omega : (-1:Int) < lastIdx ',' (a ++ ',' :: b))]
  have hfil : (a ++ ',' :: b).filter (fun c => !(c == '.')) = a ++ ',' :: b := by
    apply List.filter_eq_self.mpr
    intro x hx
    rcases List.mem_append.mp hx with h1 | h1
    · simp [digit_beq_false (hda x h1) (show isDigitC '.' = false by decide)]
    · rcases List.mem_cons.mp h1 with rfl | h2
      · decide
      · simp [digit_beq_false (hdb x h2) (show isDigitC '.' = false by decide)]
  rw [hfil]
  exact replaceFirst_append b
    (fun y hy => digit_beq_false (hda y hy) (show isDigitC ',' = false by decide))

theorem sepProcess_period {a b : List Char}
    (hda : ∀ x ∈ a, isDigitC x = true) (hdb : ∀ x ∈ b, isDigitC x = true) :
    sepProcess (a ++ '.' :: b) = a ++ '.' :: b := by
  unfold sepProcess
  have hcm : ',' ∉ a ++ '.' :: b := not_mem_sep hda hdb (by decide) (by decide)
  have hge := lastIdx_ge (c := '.') (a ++ '.' :: b)
  rw [lastIdx_not_mem hcm,
    if_neg (by omega : ¬ lastIdx '.' (a ++ '.' :: b) < (-1:Int))]
  apply List.filter_eq_self.mpr
  intro x hx
  rcases List.mem_append.mp hx with h1 | h1
  · simp [digit_beq_false (hda x h1) (show isDigitC ',' = false by decide)]
  · rcases List.mem_cons.mp h1 with rfl | h2
    · decide
    · simp [digit_beq_false (hdb x h2) (show isDigitC ',' = false by decide)]

theorem parseUnsigned_digits {a b : List Char} (ha : a ≠ [])
    (hda : ∀ x ∈ a, isDigitC x = true) (hdb : ∀ x ∈ b, isDigitC x = true) :
    parseUnsigned (a ++ '.' :: b) = some ((natOfDigits a : ℚ) + fracOfDigits b) := by
  obtain ⟨tw, dw⟩ :=
    takeWhile_append_sep (show isDigitC '.' = false by decide) a b hda
  have hae : a.isEmpty = false := by
    cases a with
    | nil => exact absurd rfl ha
    | cons x xs => rfl
  simp only [parseUnsigned, tw, dw, takeWhile_all b hdb, dropWhile_all b hdb, hae,
    Bool.false_and, Bool.false_eq_true, if_false, expFactor, mul_one]

theorem parseFloatQ_digits {a b : List Char} (ha : a ≠ [])
    (hda : ∀ x ∈ a, isDigitC x = true) (hdb : ∀ x ∈ b, isDigitC x = true) :
    parseFloatQ (a ++ '.' :: b) = some ((natOfDigits a : ℚ) + fracOfDigits b) := by
  cases a with
  | nil => exact absurd rfl ha
  | cons x xs =>
    have hx : isDigitC x = true := hda x (List.mem_cons_self x xs)
    have h1 : (x == '-') = false := digit_beq_false hx (by decide)
    have h2 : (x == '+') = false := digit_beq_false hx (by decide)
    rw [List.cons_append, parseFloatQ, if_neg (by rw [h1]; exact Bool.false_ne_true),
      if_neg (by rw [h2]; exact Bool.false_ne_true), ← List.cons_append]
    exact parseUnsigned_digits ha hda hdb

/-- C3 amended: for an input consisting of digits around a single separator
occurrence, the Amount Normalizer does not strip the separator — it treats it
as the decimal separator (for a lone comma, the comma is converted to a
period; for a lone period, the period is kept), so the digits after it become
the fractional part. -/
theorem c3_single_separator (a b : List Char) (ha : a ≠ []) (hb : b ≠ [])
    (hda : ∀ x ∈ a, isDigitC x = true) (hdb : ∀ x ∈ b, isDigitC x = true) :
    parseNumber (some (String.mk (a ++ ',' :: b)))
        = (natOfDigits a : ℚ) + fracOfDigits b
    ∧ parseNumber (some (String.mk (a ++ '.' :: b)))
        = (natOfDigits a : ℚ) + fracOfDigits b := by
  have hfil : ∀ (s : Char), stripPred s = true → (∀ x ∈ a ++ s :: b, stripPred x = true) := by
    intro s hs x hx
    rcases List.mem_append.mp hx with h1 | h1
    · exact digit_stripPred (hda x h1)
    · rcases List.mem_cons.mp h1 with rfl | h2
      · exact hs
      · exact digit_stripPred (hdb x h2)
  constructor
  · have hne : ¬ String.mk (a ++ ',' :: b) = "" := by
      intro h
      have hl : a ++ ',' :: b = [] := congrArg String.data h
      cases a with
      | nil => exact ha rfl
      | cons x xs => exact List.cons_ne_nil x _ hl
    rw [parseNumber, if_neg hne]
    have hfa : (String.mk (a ++ ',' :: b)).data.filter stripPred = a ++ ',' :: b :=
      List.filter_eq_self.mpr (fun x hx => hfil ',' (by decide) x hx)
    show (parseFloatQ (sepProcess
        ((String.mk (a ++ ',' :: b)).data.filter stripPred))).getD 0
      = (natOfDigits a : ℚ) + fracOfDigits b
    rw [hfa, sepProcess_comma hda hdb, parseFloatQ_digits ha hda hdb]
    rfl
  · have hne : ¬ String.mk (a ++ '.' :: b) = "" := by
      intro h
      have hl : a ++ '.' :: b = [] := congrArg String.data h
      cases a with
      | nil => exact ha rfl
      | cons x xs => exact List.cons_ne_nil x _ hl
    rw [parseNumber, if_neg hne]
    have hfa : (String.mk (a ++ '.' :: b)).data.filter stripPred = a ++ '.' :: b :=
      List.filter_eq_self.mpr (fun x hx => hfil '.' (by decide) x hx)
    show (parseFloatQ (sepProcess
        ((String.mk (a ++ '.' :: b)).data.filter stripPred))).getD 0
      = (natOfDigits a : ℚ) + fracOfDigits b
    rw [hfa, sepProcess_period hda hdb, parseFloatQ_digits ha hda hdb]
    rfl

unseal Rat.add Rat.mul Rat.inv Rat.sub in
/-- C3 counterexample: the claim says a single period or comma is stripped as a
thousands separator ("1.5" and "1,5" would both yield 15); the code parses both
as one and a half. -/
theorem c3_cx :
    parseNumber (some "1.5") = 3/2 ∧ ¬ parseNumber (some "1.5") = 15
    ∧ parseNumber (some "1,5") = 3/2 ∧ ¬ parseNumber (some "1,5") = 15 := by
  refine ⟨by decide, by decide, by decide, by decide⟩

unseal Rat.add Rat.mul Rat.inv Rat.sub in
/-- C3 witness: the amended behavior at the concrete digit lists of "1,5" and
"1.5". -/
theorem c3_witness :
    (['1'] ≠ ([] : List Char))
    ∧ parseNumber (some (String.mk (['1'] ++ ',' :: ['5'])))
        = (natOfDigits ['1'] : ℚ) + fracOfDigits ['5']
    ∧ parseNumber (some (String.mk (['1'] ++ '.' :: ['5'])))
        = (natOfDigits ['1'] : ℚ) + fracOfDigits ['5'] :=
  ⟨by decide,
   (c3_single_separator ['1'] ['5'] (by decide) (by decide) (by decide) (by decide)).1,
   (c3_single_separator ['1'] ['5'] (by decide) (by decide) (by decide) (by decide)).2⟩

/-- A custom keyword configuration that classifies the unseen item of
`c6Momence` differently from the default ruleset. -/
def c6CustomCats : List CustomCategoryConfig :=
  [{ name := "Workshops & Events", keywords := ["nieuw"], btwRate := 9/100,
     twinfieldAccount := "8150", group := .yoga }]

unseal Rat.add Rat.mul Rat.inv Rat.sub in
/-- C6 counterexample: two runs over the same rows under different keyword
configurations produce different pre-classified candidate lists, yet store
byte-identical Pending Reconciliation state — the stored record holds the rows
and the candidate count, not the candidate list. -/
theorem c6_cx :
    checkForNewProducts c6Momence none (fun _ => none)
      ≠ checkForNewProducts c6Momence (some c6CustomCats) (fun _ => none)
    ∧ (reconcileRoute c6Momence [] "2024-01" none (fun _ => none) false "t1" "s1" {}).2
      = (reconcileRoute c6Momence [] "2024-01" (some c6CustomCats) (fun _ => none) false
          "t1" "s1" {}).2
    ∧ getPendingReconciliation "t1"
        (reconcileRoute c6Momence [] "2024-01" none (fun _ => none) false "t1" "s1" {}).2
      = some { id := "t1", period := "2024-01", momenceData := c6Momence, stripeData := [],
               newProductCount := 1, status := "pending" } := by
  refine ⟨by decide, by decide, by decide⟩
